import Mathlib

/-!
Verification of the GNU dbm storage-engine core against its source.

Each section shallowly embeds the relevant C functions from the repository
(src/src/gdbmsync.c, src/src/avail.c, src/src/bucket.c, src/src/gdbmclose.c,
src/src/gdbmexists.c and the update/lock code) as executable Lean definitions,
and proves or refutes the documented properties about them.
-/

/-- Library error codes (GDBM_* constants from gdbm.h) that the embedded
functions manipulate. -/
inductive GdbmErr where
  | noError
  | itemNotFound
  | badAvail
  | badBucket
  | usage
  | fileOpenError
  | fileSyncError
  | fileCloseError
  | fileSeekError
  | errRealpath
  | errFileMode
  | errSnapshotClone
  | mallocError
  | cannotReplace
  | bucketCacheCorrupted
  | needRecoveryErr
deriving DecidableEq, Repr

/- ------------------------------------------------------------------ -/
/- C9: gdbm_exists (src/src/gdbmexists.c, lines 27-37)                 -/
/- ------------------------------------------------------------------ -/

/-- Shallow embedding of gdbm_exists (src/src/gdbmexists.c).  The underlying
call _gdbm_findkey is abstracted by its return value `rc` together with the
error code `err` it left in gdbm_errno.  The result is the pair of the
return value of gdbm_exists and the value of gdbm_errno after the call. -/
def gdbm_exists (rc : Int) (err : GdbmErr) : Int × GdbmErr :=
  if rc < 0 then
    (0, if err = GdbmErr.itemNotFound then GdbmErr.noError else err)
  else
    (1, err)

/- ------------------------------------------------------------------ -/
/- C1: gdbm_latest_snapshot (src/src/gdbmsync.c, lines 222-413)        -/
/- ------------------------------------------------------------------ -/

/-- Result codes of gdbm_latest_snapshot (the GDBM_SNAPSHOT_* constants). -/
inductive SnapshotSel where
  | ok
  | bad
  | err
  | same
  | suspicious
deriving DecidableEq, Repr

/-- Which of the two snapshot files gdbm_latest_snapshot stored in *ret. -/
inductive SnapWhich where
  | evenFile
  | oddFile
deriving DecidableEq, Repr

/-- Stat information about one snapshot file, as examined by stat_snapshot
in src/src/gdbmsync.c.  `statOk` models a successful stat(2) call; `numsync`
models the numsync counter that gdbm_numsync reads from the extended header
(none when the snapshot cannot be opened as a database with an extended
header). -/
structure SnapStat where
  statOk : Bool
  isReg : Bool
  rUsr : Bool
  wUsr : Bool
  xUsr : Bool
  mtimeSec : Int
  mtimeNsec : Int
  numsync : Option Nat
deriving DecidableEq, Repr

/-- Embedding of check_snapshot_mode (src/src/gdbmsync.c, lines 243-259):
the file must be regular, not executable, and exactly one of user-readable
and user-writable. -/
def check_snapshot_mode (st : SnapStat) : Bool :=
  st.isReg && !st.xUsr && (if st.rUsr then !st.wUsr else st.wUsr)

/-- Embedding of stat_snapshot (src/src/gdbmsync.c, lines 261-272): true when
stat succeeds and the mode check passes. -/
def stat_snapshot (st : SnapStat) : Bool :=
  st.statOk && check_snapshot_mode st

/-- UINT_MAX for the 32-bit unsigned numsync counter. -/
def UINT_MAX : Nat := 2 ^ 32 - 1

/-- Embedding of timespec_cmp (src/src/gdbmsync.c, lines 222-241),
HAVE_STRUCT_STAT_ST_MTIM branch: lexicographic comparison of
(tv_sec, tv_nsec). -/
def timespec_cmp (aSec aNsec bSec bNsec : Int) : Int :=
  if aSec < bSec then -1
  else if bSec < aSec then 1
  else if aNsec < bNsec then -1
  else if bNsec < aNsec then 1
  else 0

/-- Embedding of gdbm_numsync_cmp (src/src/gdbmsync.c, lines 304-322).  The
two arguments are the numsync values read by gdbm_numsync from each snapshot
(none when gdbm_numsync fails, in which case the result is 0, "undefined"). -/
def gdbm_numsync_cmp (na nb : Option Nat) : Int :=
  match na, nb with
  | some na, some nb =>
      if na = UINT_MAX ∧ nb = 0 then -1
      else if na = 0 ∧ nb = UINT_MAX then 1
      else if na < nb then (if na + 1 = nb then -1 else -2)
      else if nb < na then (if na = nb + 1 then 1 else 2)
      else 0
  | _, _ => 0

/-- Embedding of gdbm_latest_snapshot (src/src/gdbmsync.c, lines 331-413).
`retNull` models a NULL *ret argument; the file names are Option String
(none models a NULL pointer).  The result pairs the returned status with
the snapshot stored in *ret (none when *ret is left untouched). -/
def gdbm_latest_snapshot (retNull : Bool) (evenName oddName : Option String)
    (stEven stOdd : SnapStat) : SnapshotSel × Option SnapWhich :=
  if retNull ∨ evenName = none ∨ oddName = none ∨ evenName = oddName then
    (SnapshotSel.err, none)
  else if ¬ stat_snapshot stEven then (SnapshotSel.err, none)
  else if ¬ stat_snapshot stOdd then (SnapshotSel.err, none)
  else if stEven.rUsr then
    if ¬ stOdd.rUsr then (SnapshotSel.ok, some SnapWhich.evenFile)
    else
      let c := gdbm_numsync_cmp stEven.numsync stOdd.numsync
      if c = -1 then (SnapshotSel.ok, some SnapWhich.oddFile)
      else if c = -2 then (SnapshotSel.suspicious, none)
      else if c = 1 then (SnapshotSel.ok, some SnapWhich.evenFile)
      else if c = 2 then (SnapshotSel.suspicious, none)
      else
        let t := timespec_cmp stEven.mtimeSec stEven.mtimeNsec
                               stOdd.mtimeSec stOdd.mtimeNsec
        if t = -1 then (SnapshotSel.ok, some SnapWhich.oddFile)
        else if t = 1 then (SnapshotSel.ok, some SnapWhich.evenFile)
        else (SnapshotSel.same, none)
  else if stOdd.rUsr then (SnapshotSel.ok, some SnapWhich.oddFile)
  else (SnapshotSel.bad, none)

/-- Definition following the words of claim C1 (not the source): both
readable means prefer the numsync that is exactly one greater (with 32-bit
wrap); numsync equal or differing by more than one reports Suspicious and
prefers the more recent mtime; mtime tie reports Same.  Used only to compare
the claim against the code. -/
def claimC1_latest_snapshot (stEven stOdd : SnapStat) :
    SnapshotSel × Option SnapWhich :=
  if stEven.rUsr && !stOdd.rUsr then (SnapshotSel.ok, some SnapWhich.evenFile)
  else if !stEven.rUsr && stOdd.rUsr then (SnapshotSel.ok, some SnapWhich.oddFile)
  else if stEven.rUsr && stOdd.rUsr then
    let suspicious :=
      let t := timespec_cmp stEven.mtimeSec stEven.mtimeNsec
                             stOdd.mtimeSec stOdd.mtimeNsec
      if t = 1 then (SnapshotSel.suspicious, some SnapWhich.evenFile)
      else if t = -1 then (SnapshotSel.suspicious, some SnapWhich.oddFile)
      else (SnapshotSel.same, none)
    match stEven.numsync, stOdd.numsync with
    | some na, some nb =>
        if na = (nb + 1) % 2 ^ 32 then (SnapshotSel.ok, some SnapWhich.evenFile)
        else if nb = (na + 1) % 2 ^ 32 then (SnapshotSel.ok, some SnapWhich.oddFile)
        else suspicious
    | _, _ => suspicious
  else (SnapshotSel.bad, none)

/-- Helper lemma: for 32-bit values, gdbm_numsync_cmp returns -1 exactly when
b's numsync is one greater than a's modulo 2^32. -/
theorem gdbm_numsync_cmp_eq_neg_one (na nb : Nat) (ha : na < 2 ^ 32)
    (hb : nb < 2 ^ 32) :
    gdbm_numsync_cmp (some na) (some nb) = -1 ↔ nb = (na + 1) % 2 ^ 32 := by
  have key : (nb = (na + 1) % 2 ^ 32) ↔
      (na + 1 = nb ∨ (na = 2 ^ 32 - 1 ∧ nb = 0)) := by omega
  rw [key]
  simp only [gdbm_numsync_cmp, UINT_MAX]
  split_ifs <;> norm_num <;> omega

/-- Helper lemma: for 32-bit values, gdbm_numsync_cmp returns 1 exactly when
a's numsync is one greater than b's modulo 2^32. -/
theorem gdbm_numsync_cmp_eq_one (na nb : Nat) (ha : na < 2 ^ 32)
    (hb : nb < 2 ^ 32) :
    gdbm_numsync_cmp (some na) (some nb) = 1 ↔ na = (nb + 1) % 2 ^ 32 := by
  have key : (na = (nb + 1) % 2 ^ 32) ↔
      (na = nb + 1 ∨ (nb = 2 ^ 32 - 1 ∧ na = 0)) := by omega
  rw [key]
  simp only [gdbm_numsync_cmp, UINT_MAX]
  split_ifs <;> norm_num <;> omega

/-- Helper lemma: gdbm_numsync_cmp returns 0 on two present numsync values
exactly when they are equal. -/
theorem gdbm_numsync_cmp_eq_zero (na nb : Nat) :
    gdbm_numsync_cmp (some na) (some nb) = 0 ↔ na = nb := by
  have hU : UINT_MAX = 2 ^ 32 - 1 := rfl
  simp only [gdbm_numsync_cmp, hU]
  split_ifs <;> norm_num <;> omega

/-- Helper lemma: gdbm_numsync_cmp only returns the five documented values. -/
theorem gdbm_numsync_cmp_cases (na nb : Option Nat) :
    gdbm_numsync_cmp na nb = -2 ∨ gdbm_numsync_cmp na nb = -1 ∨
    gdbm_numsync_cmp na nb = 0 ∨ gdbm_numsync_cmp na nb = 1 ∨
    gdbm_numsync_cmp na nb = 2 := by
  unfold gdbm_numsync_cmp UINT_MAX
  rcases na with _ | na
  · simp
  · rcases nb with _ | nb
    · simp
    · dsimp only
      split_ifs <;> norm_num

/-- C1 counterexample: with both snapshots readable, equal numsync counters
(5 and 5) and distinct mtimes, the code returns GDBM_SNAPSHOT_OK selecting
the newer file, whereas the claim as stated predicts GDBM_SNAPSHOT_SUSPICIOUS;
so the claim is false on the code. -/
theorem gdbm_latest_snapshot_claim_refuted :
    gdbm_latest_snapshot false (some "e") (some "o")
        ⟨true, true, true, false, false, 10, 0, some 5⟩
        ⟨true, true, true, false, false, 5, 0, some 5⟩
      = (SnapshotSel.ok, some SnapWhich.evenFile) ∧
    claimC1_latest_snapshot
        ⟨true, true, true, false, false, 10, 0, some 5⟩
        ⟨true, true, true, false, false, 5, 0, some 5⟩
      = (SnapshotSel.suspicious, some SnapWhich.evenFile) ∧
    SnapshotSel.ok ≠ SnapshotSel.suspicious := by
  refine ⟨?_, ?_, ?_⟩ <;> decide

/-- C1 (amended): gdbm_latest_snapshot chooses the recovery source as
follows.  With valid arguments and both files passing stat_snapshot: if
exactly one file is readable it is returned with status OK; if neither is
readable the status is Bad; if both are readable, the file whose numsync is
one greater than the other's modulo 2^32 is returned with status OK; numsync
values differing by more than one give status Suspicious with no selection;
equal (or unavailable) numsync values fall back to the mtime comparison,
returning the newer file with status OK, or status Same with no selection
when the mtimes tie. -/
theorem gdbm_latest_snapshot_amended
    (evenName oddName : Option String) (stEven stOdd : SnapStat)
    (hev : evenName ≠ none) (hod : oddName ≠ none) (hne : evenName ≠ oddName)
    (hE : stat_snapshot stEven = true) (hO : stat_snapshot stOdd = true) :
    (stEven.rUsr = true → stOdd.rUsr = false →
      gdbm_latest_snapshot false evenName oddName stEven stOdd
        = (SnapshotSel.ok, some SnapWhich.evenFile)) ∧
    (stEven.rUsr = false → stOdd.rUsr = true →
      gdbm_latest_snapshot false evenName oddName stEven stOdd
        = (SnapshotSel.ok, some SnapWhich.oddFile)) ∧
    (stEven.rUsr = false → stOdd.rUsr = false →
      gdbm_latest_snapshot false evenName oddName stEven stOdd
        = (SnapshotSel.bad, none)) ∧
    (stEven.rUsr = true → stOdd.rUsr = true →
      (∀ na nb, stEven.numsync = some na → stOdd.numsync = some nb →
        na < 2 ^ 32 → nb < 2 ^ 32 →
        (na = (nb + 1) % 2 ^ 32 →
          gdbm_latest_snapshot false evenName oddName stEven stOdd
            = (SnapshotSel.ok, some SnapWhich.evenFile)) ∧
        (nb = (na + 1) % 2 ^ 32 →
          gdbm_latest_snapshot false evenName oddName stEven stOdd
            = (SnapshotSel.ok, some SnapWhich.oddFile)) ∧
        (na ≠ (nb + 1) % 2 ^ 32 → nb ≠ (na + 1) % 2 ^ 32 → na ≠ nb →
          gdbm_latest_snapshot false evenName oddName stEven stOdd
            = (SnapshotSel.suspicious, none))) ∧
      ((stEven.numsync = stOdd.numsync ∨ stEven.numsync = none ∨
          stOdd.numsync = none) →
        (timespec_cmp stEven.mtimeSec stEven.mtimeNsec
            stOdd.mtimeSec stOdd.mtimeNsec = 1 →
          gdbm_latest_snapshot false evenName oddName stEven stOdd
            = (SnapshotSel.ok, some SnapWhich.evenFile)) ∧
        (timespec_cmp stEven.mtimeSec stEven.mtimeNsec
            stOdd.mtimeSec stOdd.mtimeNsec = -1 →
          gdbm_latest_snapshot false evenName oddName stEven stOdd
            = (SnapshotSel.ok, some SnapWhich.oddFile)) ∧
        (timespec_cmp stEven.mtimeSec stEven.mtimeNsec
            stOdd.mtimeSec stOdd.mtimeNsec = 0 →
          gdbm_latest_snapshot false evenName oddName stEven stOdd
            = (SnapshotSel.same, none)))) := by
  have hguard : ¬ ((false : Bool) = true ∨ evenName = none ∨ oddName = none ∨
      evenName = oddName) := by
    push_neg
    exact ⟨by simp, hev, hod, hne⟩
  unfold gdbm_latest_snapshot
  rw [if_neg hguard, if_neg (by simp [hE]), if_neg (by simp [hO])]
  refine ⟨?_, ?_, ?_, ?_⟩
  · intro h1 h2
    simp [h1, h2]
  · intro h1 h2
    simp [h1, h2]
  · intro h1 h2
    simp [h1, h2]
  · intro h1 h2
    constructor
    · intro na nb hna hnb hba hbb
      rw [hna, hnb]
      refine ⟨?_, ?_, ?_⟩
      · intro hgt
        have hc : gdbm_numsync_cmp (some na) (some nb) = 1 :=
          (gdbm_numsync_cmp_eq_one na nb hba hbb).mpr hgt
        simp [h1, h2, hc]
      · intro hgt
        have hc : gdbm_numsync_cmp (some na) (some nb) = -1 :=
          (gdbm_numsync_cmp_eq_neg_one na nb hba hbb).mpr hgt
        simp [h1, h2, hc]
      · intro d1 d2 dq
        have hc : gdbm_numsync_cmp (some na) (some nb) = -2 ∨
            gdbm_numsync_cmp (some na) (some nb) = 2 := by
          rcases gdbm_numsync_cmp_cases (some na) (some nb) with h | h | h | h | h
          · exact Or.inl h
          · exact absurd ((gdbm_numsync_cmp_eq_neg_one na nb hba hbb).mp h) d2
          · exact absurd ((gdbm_numsync_cmp_eq_zero na nb).mp h) dq
          · exact absurd ((gdbm_numsync_cmp_eq_one na nb hba hbb).mp h) d1
          · exact Or.inr h
        rcases hc with hc | hc <;> simp [h1, h2, hc]
    · intro heq
      have hc : gdbm_numsync_cmp stEven.numsync stOdd.numsync = 0 := by
        rcases heq with heq | heq | heq
        · rw [heq]
          rcases stOdd.numsync with _ | n
          · rfl
          · exact (gdbm_numsync_cmp_eq_zero n n).mpr rfl
        · rw [heq]; rfl
        · rw [heq]
          rcases stEven.numsync with _ | n <;> rfl
      refine ⟨?_, ?_, ?_⟩ <;> intro ht <;> simp [h1, h2, hc, ht]

/-- C1 amended claim witness: a concrete instantiation, numsync 6 against 5
with both snapshots readable, on which the amended theorem yields OK/even. -/
theorem gdbm_latest_snapshot_amended_witness :
    gdbm_latest_snapshot false (some "a") (some "b")
        ⟨true, true, true, false, false, 3, 0, some 6⟩
        ⟨true, true, true, false, false, 2, 0, some 5⟩
      = (SnapshotSel.ok, some SnapWhich.evenFile) :=
  ((((gdbm_latest_snapshot_amended (some "a") (some "b")
      ⟨true, true, true, false, false, 3, 0, some 6⟩
      ⟨true, true, true, false, false, 2, 0, some 5⟩
      (by decide) (by decide) (by decide) (by decide) (by decide)).2.2.2
      rfl rfl).1 6 5 rfl rfl (by norm_num) (by norm_num)).1 (by norm_num))

/-- C9: gdbm_exists returns 1 exactly when _gdbm_findkey succeeds (returns a
non-negative value); on any failure it returns 0, resetting gdbm_errno to
NoError only when the error was ItemNotFound and leaving any other error code
in place. -/
theorem gdbm_exists_spec (rc : Int) (err : GdbmErr) :
    ((gdbm_exists rc err).1 = 1 ↔ 0 ≤ rc) ∧
    (rc < 0 → (gdbm_exists rc err).1 = 0) ∧
    (rc < 0 → err = GdbmErr.itemNotFound →
      (gdbm_exists rc err).2 = GdbmErr.noError) ∧
    (rc < 0 → err ≠ GdbmErr.itemNotFound → (gdbm_exists rc err).2 = err) ∧
    (0 ≤ rc → (gdbm_exists rc err).2 = err) := by
  unfold gdbm_exists
  by_cases h : rc < 0 <;> by_cases he : err = GdbmErr.itemNotFound <;>
    simp [h, he] <;> omega

/-- C9 witness: gdbm_exists on a failed lookup that left BadAvail returns 0
and keeps the BadAvail error code visible. -/
theorem gdbm_exists_spec_witness :
    (gdbm_exists (-1) GdbmErr.badAvail).1 = 0 ∧
    (gdbm_exists (-1) GdbmErr.badAvail).2 = GdbmErr.badAvail := by
  have h := gdbm_exists_spec (-1) GdbmErr.badAvail
  exact ⟨h.2.1 (by norm_num), h.2.2.2.1 (by norm_num) (by decide)⟩

/- ------------------------------------------------------------------ -/
/- C4: avail-table validation (src/src/avail.c, lines 22-103)          -/
/- ------------------------------------------------------------------ -/

/-- On-disk avail element: a free region descriptor {av_size, av_adr}. -/
structure avail_elem where
  av_size : Int
  av_adr : Int
deriving DecidableEq, Repr

/-- Largest value of the 64-bit signed off_t type. -/
def OFF_T_MAX : Int := 2 ^ 63 - 1

/-- Modelled from the spec: off_t_sum_ok is a helper from gdbmdefs.h (not
present under src/) whose use in gdbm_avail_table_valid_p checks that
av_adr + av_size involves "no arithmetic overflow" of the off_t type. -/
def off_t_sum_ok (a b : Int) : Bool :=
  decide (-(2 ^ 63) ≤ a + b ∧ a + b ≤ OFF_T_MAX)

/-- Embedding of the per-element check inside the loop of
gdbm_avail_table_valid_p (src/src/avail.c, lines 57-62): the element address
must be at least header->bucket_size, the sum must not overflow off_t, and
the element must end at or before header->next_block. -/
def avail_elem_valid (bucketSize nextBlock : Int) (e : avail_elem) : Bool :=
  decide (bucketSize ≤ e.av_adr) && off_t_sum_ok e.av_adr e.av_size &&
    decide (e.av_adr + e.av_size ≤ nextBlock)

/-- Embedding of gdbm_avail_table_valid_p (src/src/avail.c, lines 48-75).
The re-sorting side effect performed when the size order was clobbered does
not influence the returned validity, so only the boolean result is
modelled. -/
def gdbm_avail_table_valid_p (bucketSize nextBlock : Int)
    (av : List avail_elem) : Bool :=
  av.all (avail_elem_valid bucketSize nextBlock)

/-- Embedding of gdbm_avail_block_validate (src/src/avail.c, lines 77-89).
`byteSize` is the byte size of the block image, `abSize` and `aeSize` the
byte sizes of the avail_block header and of one avail_elem; `blkSize` is the
avblk->size field, and the table list holds the avblk->count elements. -/
def gdbm_avail_block_validate (bucketSize nextBlock : Int)
    (byteSize abSize aeSize : Nat) (blkSize : Int)
    (table : List avail_elem) : Except GdbmErr Unit :=
  if byteSize > abSize ∧ 1 < blkSize ∧ (table.length : Int) ≤ blkSize ∧
      table.length ≤ (byteSize - abSize) / aeSize + 1 ∧
      gdbm_avail_table_valid_p bucketSize nextBlock table = true then
    Except.ok ()
  else
    Except.error GdbmErr.badAvail

/-- Embedding of gdbm_bucket_avail_table_validate (src/src/avail.c, lines
91-103); `bucketAvailMax` is the BUCKET_AVAIL capacity of the per-bucket
avail array and the table holds the bucket->av_count elements. -/
def gdbm_bucket_avail_table_validate (bucketSize nextBlock : Int)
    (bucketAvailMax : Nat) (table : List avail_elem) : Except GdbmErr Unit :=
  if table.length ≤ bucketAvailMax ∧
      gdbm_avail_table_valid_p bucketSize nextBlock table = true then
    Except.ok ()
  else
    Except.error GdbmErr.badAvail

/-- Definition following the words of claim C4 (not the source): the claim
demands av_adr to be at least block_size rather than bucket_size. -/
def claimC4_elem_valid (blockSize nextBlock : Int) (e : avail_elem) : Bool :=
  decide (blockSize ≤ e.av_adr) && off_t_sum_ok e.av_adr e.av_size &&
    decide (e.av_adr + e.av_size ≤ nextBlock)

/-- C4 counterexample: with bucket_size 512 and block_size 1024, an avail
element at address 512 is accepted by the code (the read succeeds), while the
claim as stated (threshold block_size) predicts the read fails with BadAvail;
so the claim is false on the code. -/
theorem gdbm_avail_validation_claim_refuted :
    gdbm_bucket_avail_table_validate 512 4096 6 [⟨10, 512⟩] = Except.ok () ∧
    gdbm_avail_block_validate 512 4096 1024 16 16 10 [⟨10, 512⟩]
      = Except.ok () ∧
    claimC4_elem_valid 1024 4096 ⟨10, 512⟩ = false ∧
    (512 : Int) < 1024 :=
  ⟨by rfl, by rfl, by decide, by decide⟩

/-- C4 (amended): every read of an avail block or of a bucket's avail table
validates each element against header->bucket_size (not block_size): the
validation succeeds exactly when every element e satisfies
bucket_size ≤ av_adr, av_adr + av_size does not overflow off_t, and
av_adr + av_size ≤ header.next_block (plus the size/count sanity limits of
the enclosing block); any element violating these bounds makes the read
fail with BadAvail. -/
theorem gdbm_avail_validation_amended (bucketSize nextBlock : Int)
    (bucketAvailMax : Nat) (byteSize abSize aeSize : Nat) (blkSize : Int)
    (table : List avail_elem) :
    (gdbm_bucket_avail_table_validate bucketSize nextBlock bucketAvailMax
        table = Except.ok () ↔
      table.length ≤ bucketAvailMax ∧
      ∀ e ∈ table, bucketSize ≤ e.av_adr ∧
        (-(2 ^ 63) ≤ e.av_adr + e.av_size ∧ e.av_adr + e.av_size ≤ OFF_T_MAX) ∧
        e.av_adr + e.av_size ≤ nextBlock) ∧
    ((∃ e ∈ table, ¬ (bucketSize ≤ e.av_adr ∧
        (-(2 ^ 63) ≤ e.av_adr + e.av_size ∧ e.av_adr + e.av_size ≤ OFF_T_MAX) ∧
        e.av_adr + e.av_size ≤ nextBlock)) →
      gdbm_bucket_avail_table_validate bucketSize nextBlock bucketAvailMax
        table = Except.error GdbmErr.badAvail) ∧
    (gdbm_avail_block_validate bucketSize nextBlock byteSize abSize aeSize
        blkSize table = Except.ok () →
      ∀ e ∈ table, bucketSize ≤ e.av_adr ∧
        (-(2 ^ 63) ≤ e.av_adr + e.av_size ∧ e.av_adr + e.av_size ≤ OFF_T_MAX) ∧
        e.av_adr + e.av_size ≤ nextBlock) ∧
    ((∃ e ∈ table, ¬ (bucketSize ≤ e.av_adr ∧
        (-(2 ^ 63) ≤ e.av_adr + e.av_size ∧ e.av_adr + e.av_size ≤ OFF_T_MAX) ∧
        e.av_adr + e.av_size ≤ nextBlock)) →
      gdbm_avail_block_validate bucketSize nextBlock byteSize abSize aeSize
        blkSize table = Except.error GdbmErr.badAvail) := by
  have htab : gdbm_avail_table_valid_p bucketSize nextBlock table = true ↔
      ∀ e ∈ table, bucketSize ≤ e.av_adr ∧
        (-(2 ^ 63) ≤ e.av_adr + e.av_size ∧ e.av_adr + e.av_size ≤ OFF_T_MAX) ∧
        e.av_adr + e.av_size ≤ nextBlock := by
    simp [gdbm_avail_table_valid_p, avail_elem_valid, off_t_sum_ok,
      List.all_eq_true, and_assoc]
  refine ⟨?_, ?_, ?_, ?_⟩
  · unfold gdbm_bucket_avail_table_validate
    split_ifs with h
    · simp only [true_iff]
      exact ⟨h.1, htab.mp h.2⟩
    · constructor
      · intro hx
        exact absurd hx (by simp)
      · intro hx
        exact absurd ⟨hx.1, htab.mpr hx.2⟩ h
  · intro hx
    unfold gdbm_bucket_avail_table_validate
    split_ifs with h
    · obtain ⟨e, he, hv⟩ := hx
      exact absurd (htab.mp h.2 e he) hv
    · rfl
  · unfold gdbm_avail_block_validate
    split_ifs with h
    · intro _
      exact htab.mp h.2.2.2.2
    · intro hx
      exact absurd hx (by simp)
  · intro hx
    unfold gdbm_avail_block_validate
    split_ifs with h
    · obtain ⟨e, he, hv⟩ := hx
      exact absurd (htab.mp h.2.2.2.2 e he) hv
    · rfl

/-- C4 amended claim witness: a concrete element at address 0 violates the
bucket_size bound and the bucket avail-table read fails with BadAvail. -/
theorem gdbm_avail_validation_amended_witness :
    gdbm_bucket_avail_table_validate 512 4096 6 [⟨10, 0⟩]
      = Except.error GdbmErr.badAvail :=
  (gdbm_avail_validation_amended 512 4096 6 1024 16 16 10 [⟨10, 0⟩]).2.1
    ⟨⟨10, 0⟩, by norm_num, by norm_num⟩

/- ------------------------------------------------------------------ -/
/- C8: gdbm_close (src/src/gdbmclose.c, lines 27-70)                   -/
/- ------------------------------------------------------------------ -/

/-- Observable actions performed by gdbm_close, in program order. -/
inductive CloseEv where
  | fileSync
  | syncDone
  | unmapFile
  | unlockFile
  | closeFd
  | freeMem
deriving DecidableEq, Repr

/-- GDBM_READER open mode constant (gdbm.h). -/
def GDBM_READER : Nat := 0

/-- The part of the handle state that gdbm_close inspects.  `freed` models
whether the handle memory has already been returned by free(); dereferencing
a freed handle is undefined behaviour in C, which the embedding represents
by returning none. -/
structure GdbmHandleCl where
  freed : Bool
  desc : Int
  read_write : Nat
  file_locking : Bool
deriving DecidableEq, Repr

/-- Embedding of gdbm_close (src/src/gdbmclose.c, lines 27-70): when the
descriptor is valid it syncs the file for any non-reader mode, tears the
snapshot system down, unmaps, unlocks when locking is enabled and closes the
descriptor; in every case it then frees all memory of the handle.  The
result is the list of performed actions together with the final handle
state; a call on an already freed handle is undefined behaviour (none). -/
def gdbm_close (h : GdbmHandleCl) : Option (List CloseEv × GdbmHandleCl) :=
  if h.freed then none
  else
    some
      ((if h.desc ≠ -1 then
          (if h.read_write ≠ GDBM_READER then [CloseEv.fileSync] else [])
            ++ [CloseEv.syncDone, CloseEv.unmapFile]
            ++ (if h.file_locking then [CloseEv.unlockFile] else [])
            ++ [CloseEv.closeFd]
        else [])
        ++ [CloseEv.freeMem],
      { h with freed := true })

/-- C8 counterexample: closing a writer handle succeeds and frees the
handle; invoking gdbm_close again on the same handle is undefined behaviour
(the handle memory was freed), not a permitted no-op, so Close is not
idempotent and the claim is false on the code. -/
theorem gdbm_close_claim_refuted :
    gdbm_close ⟨false, 3, 1, true⟩
      = some ([CloseEv.fileSync, CloseEv.syncDone, CloseEv.unmapFile,
               CloseEv.unlockFile, CloseEv.closeFd, CloseEv.freeMem],
              ⟨true, 3, 1, true⟩) ∧
    gdbm_close ⟨true, 3, 1, true⟩ = none :=
  ⟨by rfl, by rfl⟩

/-- C8 (amended): on a live handle with a valid descriptor, gdbm_close first
syncs the database whenever the handle was opened in any mode other than
Reader (and never syncs a Reader handle), then releases the file lock when
locking is enabled, and finally frees all memory owned by the handle; the
handle is deallocated by the call, so Close is not idempotent: a second
invocation on the same handle is undefined behaviour. -/
theorem gdbm_close_amended (h : GdbmHandleCl) (hf : h.freed = false) :
    ∃ tr h', gdbm_close h = some (tr, h') ∧
      (h.desc ≠ -1 → h.read_write ≠ GDBM_READER →
        tr.head? = some CloseEv.fileSync) ∧
      (h.read_write = GDBM_READER → CloseEv.fileSync ∉ tr) ∧
      (h.desc ≠ -1 → h.file_locking = true → CloseEv.unlockFile ∈ tr) ∧
      tr.getLast? = some CloseEv.freeMem ∧
      h'.freed = true ∧
      gdbm_close h' = none := by
  obtain ⟨hfr, d, rw, lk⟩ := h
  simp only at hf
  subst hfr
  refine ⟨_, ⟨true, d, rw, lk⟩, rfl, ?_, ?_, ?_, ?_, rfl, rfl⟩
  · intro hd hr
    dsimp only at hd hr ⊢
    simp [hd, hr]
  · intro hr
    dsimp only at hr ⊢
    by_cases hd : d = -1 <;> by_cases hl : lk = true <;>
      simp [hd, hr, hl]
  · intro hd hl
    dsimp only at hd hl ⊢
    by_cases hr : rw = GDBM_READER <;> simp [hd, hl, hr]
  · dsimp only
    by_cases hd : d = -1 <;> by_cases hl : lk = true <;>
      by_cases hr : rw = GDBM_READER <;>
        simp [hd, hl, hr, List.getLast?_concat]

/-- C8 amended claim witness: the amended theorem applied to a concrete
writer handle with locking enabled. -/
theorem gdbm_close_amended_witness :
    ∃ tr h', gdbm_close ⟨false, 4, 2, true⟩ = some (tr, h') ∧
      tr.head? = some CloseEv.fileSync ∧ gdbm_close h' = none := by
  obtain ⟨tr, h', he, hsync, _, _, _, _, hagain⟩ :=
    gdbm_close_amended ⟨false, 4, 2, true⟩ rfl
  exact ⟨tr, h', he, hsync (by decide) (by decide), hagain⟩

/- ------------------------------------------------------------------ -/
/- C5: gdbm_sync / _gdbm_end_update (src/src/gdbmsync.c 458-477 and    -/
/- the update code in src/unnamed/part_005)                            -/
/- ------------------------------------------------------------------ -/

/-- Observable actions performed while syncing, in program order.
`fileSync` stands for a gdbm_file_sync call (fsync, or msync under mmap). -/
inductive SyncEv where
  | flushCache
  | writeDir
  | writeHeader
  | extendFile
  | fileSync
deriving DecidableEq, Repr

/-- The handle state consulted by gdbm_sync and _gdbm_end_update: the
extended-header numsync counter when the numsync format is in use, the
header/directory changed flags, and the fast_write flag (false when the
database was opened with GDBM_SYNC). -/
structure SyncSt where
  numsync : Option Nat
  header_changed : Bool
  directory_changed : Bool
  fast_write : Bool
deriving DecidableEq, Repr

/-- Embedding of write_header (src/unnamed/part_005): writes the header
block at offset 0 and, when fast_write is false, syncs the file. -/
def write_header_tr (st : SyncSt) : List SyncEv :=
  SyncEv.writeHeader :: (if st.fast_write then [] else [SyncEv.fileSync])

/-- Embedding of _gdbm_end_update (src/unnamed/part_005) on its success
path: flush the changed buckets; if the directory changed, write it at
header->dir (syncing only when the header is unchanged and fast_write is
false); if the header changed, run write_header and extend the file to
header->next_block.  Returns the new state and the performed actions. -/
def gdbm_end_update (st : SyncSt) : SyncSt × List SyncEv :=
  let p1 :=
    if st.directory_changed then
      ({ st with directory_changed := false },
        SyncEv.writeDir ::
          (if st.header_changed = false ∧ st.fast_write = false then
            [SyncEv.fileSync]
          else []))
    else (st, [])
  let p2 :=
    if p1.1.header_changed then
      ({ p1.1 with header_changed := false },
        write_header_tr p1.1 ++ [SyncEv.extendFile])
    else (p1.1, [])
  (p2.1, SyncEv.flushCache :: (p1.2 ++ p2.2))

/-- Embedding of gdbm_sync (src/src/gdbmsync.c, lines 458-477) on a
consistent writable handle: when the extended header is present its numsync
counter is incremented (32-bit wrap) and the header is marked changed; then
_gdbm_end_update runs, followed by the final gdbm_file_sync of the file. -/
def gdbm_sync_model (st : SyncSt) : SyncSt × List SyncEv :=
  let st1 :=
    match st.numsync with
    | some n => { st with numsync := some ((n + 1) % 2 ^ 32),
                          header_changed := true }
    | none => st
  let p := gdbm_end_update st1
  (p.1, p.2 ++ [SyncEv.fileSync])

/-- Definition following the words of claim C5 (not the source): flush; if
the directory changed, write it followed by an fsync; if the header changed,
write it at offset 0 and extend the file; final fsync.  Used only to compare
the claim against the code. -/
def claimC5_sync_trace (st : SyncSt) : List SyncEv :=
  [SyncEv.flushCache]
    ++ (if st.directory_changed then [SyncEv.writeDir, SyncEv.fileSync]
        else [])
    ++ (if st.header_changed ∨ st.numsync.isSome then
          [SyncEv.writeHeader, SyncEv.extendFile]
        else [])
    ++ [SyncEv.fileSync]

/-- C5 counterexample: on a fast-write handle without the extended header
whose directory changed, the code performs no fsync between the directory
write and the final file sync, whereas the claim demands that the directory
write be followed by an fsync; so the claim is false on the code. -/
theorem gdbm_sync_claim_refuted :
    (gdbm_sync_model ⟨none, false, true, true⟩).2
      = [SyncEv.flushCache, SyncEv.writeDir, SyncEv.fileSync] ∧
    claimC5_sync_trace ⟨none, false, true, true⟩
      = [SyncEv.flushCache, SyncEv.writeDir, SyncEv.fileSync,
         SyncEv.fileSync] ∧
    (gdbm_sync_model ⟨none, false, true, true⟩).2
      ≠ claimC5_sync_trace ⟨none, false, true, true⟩ := by
  refine ⟨by rfl, by rfl, by decide⟩

/-- C5 (amended): on a writable handle gdbm_sync performs, in this order:
the flush of the dirty cache prefix; if the directory changed, its write at
header.dir, followed by a file sync only when the header is unchanged and
fast-write mode is off; if the header changed (which includes every handle
with the extended header, whose numsync is first incremented exactly once),
the header write at offset 0, followed by a file sync when fast-write is
off, then the extension of the file to next_block; and the final file sync
(fsync, or msync under mmap).  Both changed flags are clear afterwards. -/
theorem gdbm_sync_amended (st : SyncSt) :
    (gdbm_sync_model st).2 =
      [SyncEv.flushCache]
        ++ (if st.directory_changed then
              SyncEv.writeDir ::
                (if st.header_changed = false ∧ st.numsync = none ∧
                    st.fast_write = false then
                  [SyncEv.fileSync]
                else [])
            else [])
        ++ (if st.header_changed ∨ st.numsync.isSome then
              SyncEv.writeHeader ::
                ((if st.fast_write then [] else [SyncEv.fileSync])
                  ++ [SyncEv.extendFile])
            else [])
        ++ [SyncEv.fileSync] ∧
    (∀ n, st.numsync = some n →
      (gdbm_sync_model st).1.numsync = some ((n + 1) % 2 ^ 32)) ∧
    (st.numsync = none → (gdbm_sync_model st).1.numsync = none) ∧
    (gdbm_sync_model st).1.header_changed = false ∧
    (gdbm_sync_model st).1.directory_changed = false := by
  obtain ⟨ns, hc, dc, fw⟩ := st
  rcases ns with _ | n <;> rcases hc <;> rcases dc <;> rcases fw <;>
    simp [gdbm_sync_model, gdbm_end_update, write_header_tr]

/-- C5 amended claim witness: the amended theorem instantiated on a handle
with the extended header (numsync 7), a changed directory and fast-write
off. -/
theorem gdbm_sync_amended_witness :
    (gdbm_sync_model ⟨some 7, false, true, false⟩).2
      = [SyncEv.flushCache, SyncEv.writeDir, SyncEv.writeHeader,
         SyncEv.fileSync, SyncEv.extendFile, SyncEv.fileSync] ∧
    (gdbm_sync_model ⟨some 7, false, true, false⟩).1.numsync = some 8 := by
  have h := gdbm_sync_amended ⟨some 7, false, true, false⟩
  exact ⟨by rw [h.1]; rfl, by rw [h.2.1 7 rfl]; norm_num⟩

/- ------------------------------------------------------------------ -/
/- C6, C10: the crash-tolerant snapshot protocol                       -/
/- (src/src/gdbmsync.c, lines 76-220 and 431-454)                      -/
/- ------------------------------------------------------------------ -/

/-- Observable actions of gdbm_file_sync and of the snapshot protocol.
`dbFsync` is the conventional fsync/msync of the database file itself; the
slot argument of the other events names the snapshot file operated on. -/
inductive SnapEv where
  | dbFsync
  | chmodW (slot : Nat)
  | chmodR (slot : Nat)
  | snapFsync (slot : Nat)
  | cloneTo (slot : Nat)
deriving DecidableEq, Repr

/-- Snapshot-related handle state: the two snapshot file descriptors
(-1 when the crash-tolerance mechanism is not armed) and the even/odd
toggle eo. -/
structure SnapState where
  snapfd0 : Int
  snapfd1 : Int
  eo : Nat
deriving DecidableEq, Repr

/-- The snapshot state after the _gdbmsync_done (dbf); _gdbmsync_init (dbf)
sequence used on every disarm path (both defined in src/unnamed/part_005):
_gdbmsync_done closes any open snapshot descriptor without touching the
fields, and _gdbmsync_init then sets snapfd[0] = snapfd[1] = -1 and
eo = 0, leaving the handle un-armed. -/
def snapInitState : SnapState := ⟨-1, -1, 0⟩

/-- Result of the ioctl(FICLONE) reflink clone. -/
inductive CloneRes where
  | cloneOk
  | cloneEinval
  | cloneEnosys
  | cloneOtherErr
deriving DecidableEq, Repr

/-- Outcomes of the individual system calls made by one _gdbm_snapshot run,
in the order the code issues them. -/
structure SnapIO where
  chmodW1Ok : Bool
  fsync1Ok : Bool
  cloneRes : CloneRes
  fsync2Ok : Bool
  chmodROk : Bool
  fsync3Ok : Bool
  chmodW2Ok : Bool
  fsync4Ok : Bool
deriving DecidableEq, Repr

/-- All eight snapshot steps succeed. -/
def snapAllOk (io : SnapIO) : Bool :=
  io.chmodW1Ok && io.fsync1Ok && decide (io.cloneRes = CloneRes.cloneOk) &&
    io.fsync2Ok && io.chmodROk && io.fsync3Ok && io.chmodW2Ok && io.fsync4Ok

/-- The full snapshot action sequence on current slot c (the other slot is
1-c): chmod 0200, fsync, FICLONE clone, fsync, chmod 0400, fsync, then
chmod 0200 and fsync of the previous snapshot. -/
def snapFullTrace (c : Nat) : List SnapEv :=
  [SnapEv.chmodW c, SnapEv.snapFsync c, SnapEv.cloneTo c, SnapEv.snapFsync c,
   SnapEv.chmodR c, SnapEv.snapFsync c, SnapEv.chmodW (1 - c),
   SnapEv.snapFsync (1 - c)]

/-- Embedding of _gdbm_snapshot (src/src/gdbmsync.c, lines 76-167).  The
result is (return value, new snapshot state, actions performed on the
snapshot files, error code).  A clone failure with EINVAL or ENOSYS tears
the snapshot machinery down (_gdbmsync_done/_gdbmsync_init); note that the
eo toggle happens before the first chmod. -/
def gdbm_snapshot_model (st : SnapState) (io : SnapIO) :
    Int × SnapState × List SnapEv × GdbmErr :=
  if st.snapfd0 < 0 then (0, st, [], GdbmErr.noError)
  else if ¬ (st.eo = 0 ∨ st.eo = 1) then
    (-1, snapInitState, [], GdbmErr.usage)
  else
    let c := st.eo
    let o := 1 - st.eo
    let st1 := { st with eo := o }
    if ¬ io.chmodW1Ok then
      (-1, st1, [SnapEv.chmodW c], GdbmErr.errFileMode)
    else if ¬ io.fsync1Ok then
      (-1, st1, [SnapEv.chmodW c, SnapEv.snapFsync c], GdbmErr.fileSyncError)
    else if io.cloneRes = CloneRes.cloneEinval ∨
        io.cloneRes = CloneRes.cloneEnosys then
      (-1, snapInitState,
       [SnapEv.chmodW c, SnapEv.snapFsync c, SnapEv.cloneTo c],
       GdbmErr.errSnapshotClone)
    else if io.cloneRes = CloneRes.cloneOtherErr then
      (-1, st1, [SnapEv.chmodW c, SnapEv.snapFsync c, SnapEv.cloneTo c],
       GdbmErr.errSnapshotClone)
    else if ¬ io.fsync2Ok then
      (-1, st1, [SnapEv.chmodW c, SnapEv.snapFsync c, SnapEv.cloneTo c,
                 SnapEv.snapFsync c], GdbmErr.fileSyncError)
    else if ¬ io.chmodROk then
      (-1, st1, [SnapEv.chmodW c, SnapEv.snapFsync c, SnapEv.cloneTo c,
                 SnapEv.snapFsync c, SnapEv.chmodR c], GdbmErr.errFileMode)
    else if ¬ io.fsync3Ok then
      (-1, st1, [SnapEv.chmodW c, SnapEv.snapFsync c, SnapEv.cloneTo c,
                 SnapEv.snapFsync c, SnapEv.chmodR c, SnapEv.snapFsync c],
       GdbmErr.fileSyncError)
    else if ¬ io.chmodW2Ok then
      (-1, st1, [SnapEv.chmodW c, SnapEv.snapFsync c, SnapEv.cloneTo c,
                 SnapEv.snapFsync c, SnapEv.chmodR c, SnapEv.snapFsync c,
                 SnapEv.chmodW o], GdbmErr.errFileMode)
    else if ¬ io.fsync4Ok then
      (-1, st1, snapFullTrace c, GdbmErr.fileSyncError)
    else
      (0, st1, snapFullTrace c, GdbmErr.noError)

/-- Embedding of gdbm_file_sync (src/src/gdbmsync.c, lines 431-454): the
conventional fsync/msync of the database file runs first; if and only if it
succeeds, _gdbm_snapshot is attempted.  gdbm_sync returns this value
directly. -/
def gdbm_file_sync_model (dbSyncOk : Bool) (st : SnapState) (io : SnapIO) :
    Int × SnapState × List SnapEv × GdbmErr :=
  if dbSyncOk then
    let r := gdbm_snapshot_model st io
    (r.1, r.2.1, SnapEv.dbFsync :: r.2.2.1, r.2.2.2)
  else
    (1, st, [SnapEv.dbFsync], GdbmErr.fileSyncError)

/-- Helper lemma: on an armed handle with a valid eo toggle and all eight
steps succeeding, _gdbm_snapshot performs the full protocol sequence and
toggles the slot. -/
theorem gdbm_snapshot_model_success (st : SnapState) (io : SnapIO)
    (harm : 0 ≤ st.snapfd0) (heo : st.eo = 0 ∨ st.eo = 1)
    (hok : snapAllOk io = true) :
    gdbm_snapshot_model st io =
      (0, { st with eo := 1 - st.eo }, snapFullTrace st.eo,
       GdbmErr.noError) := by
  obtain ⟨c1, f1, cl, f2, cr, f3, c2, f4⟩ := io
  simp only [snapAllOk, Bool.and_eq_true, decide_eq_true_eq] at hok
  obtain ⟨⟨⟨⟨⟨⟨⟨h1, h2⟩, h3⟩, h4⟩, h5⟩, h6⟩, h7⟩, h8⟩ := hok
  subst h1; subst h2; subst h3; subst h4; subst h5; subst h6; subst h7
  subst h8
  unfold gdbm_snapshot_model
  rw [if_neg (by omega), if_neg (not_not_intro heo)]
  simp

/-- Helper lemma: on an armed handle with a valid eo toggle, the failure of
any of the eight protocol steps makes _gdbm_snapshot return -1. -/
theorem gdbm_snapshot_model_fail (st : SnapState) (io : SnapIO)
    (harm : 0 ≤ st.snapfd0) (heo : st.eo = 0 ∨ st.eo = 1)
    (h : snapAllOk io = false) : (gdbm_snapshot_model st io).1 = -1 := by
  obtain ⟨c1, f1, cl, f2, cr, f3, c2, f4⟩ := io
  simp only [snapAllOk] at h
  unfold gdbm_snapshot_model
  rw [if_neg (by omega), if_neg (not_not_intro heo)]
  cases c1
  · simp
  · cases f1
    · simp
    · cases cl
      case cloneEinval => simp
      case cloneEnosys => simp
      case cloneOtherErr => simp
      case cloneOk =>
        cases f2
        · simp
        · cases cr
          · simp
          · cases f3
            · simp
            · cases c2
              · simp
              · cases f4
                · simp
                · simp at h

/-- C6: when the crash-tolerant protocol is armed, every successful Sync
performs — only after the conventional fsync/msync of the database file has
succeeded — the chmod 0200/fsync, reflink-clone/fsync, chmod 0400/fsync
steps on the current snapshot slot, then chmod 0200/fsync of the previous
snapshot, and toggles the current slot; a failure of the database fsync
skips the snapshot entirely, and a failure at any snapshot step makes
gdbm_file_sync (whose value gdbm_sync returns) yield an error. -/
theorem gdbm_file_sync_snapshot_protocol (st : SnapState) (io : SnapIO)
    (harm : 0 ≤ st.snapfd0) (heo : st.eo = 0 ∨ st.eo = 1) :
    (snapAllOk io = true →
      gdbm_file_sync_model true st io =
        (0, { st with eo := 1 - st.eo },
         SnapEv.dbFsync :: snapFullTrace st.eo, GdbmErr.noError)) ∧
    (snapAllOk io = false → (gdbm_file_sync_model true st io).1 = -1) ∧
    (gdbm_file_sync_model false st io).2.2.1 = [SnapEv.dbFsync] ∧
    (gdbm_file_sync_model false st io).1 = 1 := by
  refine ⟨?_, ?_, rfl, rfl⟩
  · intro hok
    have hs := gdbm_snapshot_model_success st io harm heo hok
    simp [gdbm_file_sync_model, hs]
  · intro hfail
    have hs := gdbm_snapshot_model_fail st io harm heo hfail
    simp [gdbm_file_sync_model, hs]

/-- C6 witness: a concrete armed handle (descriptors 5 and 6, current slot
0) on which every step succeeds: the database fsync comes first, the full
snapshot sequence follows and the slot toggles to 1. -/
theorem gdbm_file_sync_snapshot_protocol_witness :
    gdbm_file_sync_model true ⟨5, 6, 0⟩
        ⟨true, true, CloneRes.cloneOk, true, true, true, true, true⟩
      = (0, ⟨5, 6, 1⟩, SnapEv.dbFsync :: snapFullTrace 0, GdbmErr.noError) :=
  (gdbm_file_sync_snapshot_protocol ⟨5, 6, 0⟩
      ⟨true, true, CloneRes.cloneOk, true, true, true, true, true⟩
      (by norm_num) (Or.inl rfl)).1 (by decide)

/-- Embedding of gdbm_failure_atomic (src/src/gdbmsync.c, lines 170-220) on
a consistent handle.  The syscall outcomes are abstracted: openEvenOk and
openOddOk model the two O_WRONLY|O_CREAT|O_EXCL opens (returning descriptors
newFd0 and newFd1), rootEven/rootOdd the fsync_to_root calls, and io the
initial _gdbm_snapshot.  The result is (return value, snapshot state, error
code set by the call, whether errno was set to EINVAL). -/
def gdbm_failure_atomic_model (needRecovery : Bool) (even odd : Option String)
    (st : SnapState) (openEvenOk openOddOk : Bool) (newFd0 newFd1 : Int)
    (rootEven rootOdd : GdbmErr) (io : SnapIO) :
    Int × SnapState × GdbmErr × Bool :=
  if needRecovery then (-1, st, GdbmErr.needRecoveryErr, false)
  else if even = none ∨ odd = none ∨ even = odd then
    (-1, st, GdbmErr.usage, true)
  else
    let st0 := if st.snapfd0 ≠ -1 then snapInitState else st
    if ¬ openEvenOk then (-1, snapInitState, GdbmErr.fileOpenError, false)
    else
      let st1 := { st0 with snapfd0 := newFd0 }
      if ¬ openOddOk then (-1, snapInitState, GdbmErr.fileOpenError, false)
      else
        let st2 := { st1 with snapfd1 := newFd1 }
        if rootEven ≠ GdbmErr.noError then
          (-1, snapInitState, rootEven, false)
        else if rootOdd ≠ GdbmErr.noError then
          (-1, snapInitState, rootOdd, false)
        else
          let st3 := { st2 with eo := 0 }
          let r := gdbm_snapshot_model st3 io
          if r.1 = 0 then (0, r.2.1, GdbmErr.noError, false)
          else (-1, snapInitState, r.2.2.2, false)

/-- C10: gdbm_failure_atomic fails with a Usage error and errno EINVAL,
leaving any previously armed snapshot state untouched, when either name is
NULL or the names are equal; any later arming failure (either exclusive
open, either fsync-to-root, or the initial snapshot) leaves the handle
un-armed with both descriptors reset; on success the handle is armed with
the two new descriptors and the current slot toggled to 1; and a reflink
clone failing with EINVAL or ENOSYS inside _gdbm_snapshot disarms the
snapshot mechanism. -/
theorem gdbm_failure_atomic_spec
    (even odd : Option String) (st : SnapState) (oe oo : Bool)
    (fd0 fd1 : Int) (re ro : GdbmErr) (io : SnapIO)
    (hfd0 : 0 ≤ fd0) (hfd1 : 0 ≤ fd1) :
    ((even = none ∨ odd = none ∨ even = odd) →
      gdbm_failure_atomic_model false even odd st oe oo fd0 fd1 re ro io
        = (-1, st, GdbmErr.usage, true)) ∧
    (¬ (even = none ∨ odd = none ∨ even = odd) →
      (oe = false ∨ oo = false ∨ re ≠ GdbmErr.noError ∨
        ro ≠ GdbmErr.noError ∨ snapAllOk io = false) →
      (gdbm_failure_atomic_model false even odd st oe oo fd0 fd1 re ro
          io).1 = -1 ∧
      (gdbm_failure_atomic_model false even odd st oe oo fd0 fd1 re ro
          io).2.1 = snapInitState) ∧
    (¬ (even = none ∨ odd = none ∨ even = odd) →
      oe = true → oo = true → re = GdbmErr.noError → ro = GdbmErr.noError →
      snapAllOk io = true →
      gdbm_failure_atomic_model false even odd st oe oo fd0 fd1 re ro io
        = (0, ⟨fd0, fd1, 1⟩, GdbmErr.noError, false)) ∧
    (∀ st' : SnapState, 0 ≤ st'.snapfd0 → (st'.eo = 0 ∨ st'.eo = 1) →
      io.chmodW1Ok = true → io.fsync1Ok = true →
      (io.cloneRes = CloneRes.cloneEinval ∨
        io.cloneRes = CloneRes.cloneEnosys) →
      (gdbm_snapshot_model st' io).1 = -1 ∧
      (gdbm_snapshot_model st' io).2.1 = snapInitState ∧
      (gdbm_snapshot_model st' io).2.2.2 = GdbmErr.errSnapshotClone) := by
  refine ⟨?_, ?_, ?_, ?_⟩
  · intro h
    simp [gdbm_failure_atomic_model, h]
  · intro hn hfail
    unfold gdbm_failure_atomic_model
    rw [if_neg (by simp), if_neg hn]
    by_cases hoe : oe = true
    · by_cases hoo : oo = true
      · by_cases hre : re = GdbmErr.noError
        · by_cases hro : ro = GdbmErr.noError
          · have hsa : snapAllOk io = false := by
              rcases hfail with h | h | h | h | h
              · rw [hoe] at h; cases h
              · rw [hoo] at h; cases h
              · exact absurd hre h
              · exact absurd hro h
              · exact h
            have hrc := gdbm_snapshot_model_fail ⟨fd0, fd1, 0⟩ io hfd0
              (Or.inl rfl) hsa
            simp [hoe, hoo, hre, hro, hrc]
          · simp [hoe, hoo, hre, hro]
        · simp [hoe, hoo, hre]
      · have : oo = false := by simpa using hoo
        simp [hoe, this]
    · have : oe = false := by simpa using hoe
      simp [this]
  · intro hn hoe hoo hre hro hsa
    unfold gdbm_failure_atomic_model
    rw [if_neg (by simp), if_neg hn]
    have hrc := gdbm_snapshot_model_success ⟨fd0, fd1, 0⟩ io hfd0
      (Or.inl rfl) hsa
    simp [hoe, hoo, hre, hro, hrc]
  · intro st' h1 h2 hc hf hcl
    unfold gdbm_snapshot_model
    rw [if_neg (by omega), if_neg (not_not_intro h2)]
    simp [hc, hf, hcl]

/-- C10 witness: a concrete successful arming (fresh un-armed handle, names
distinct, descriptors 7 and 8, every step succeeding) leaves the handle
armed with slot 1 current. -/
theorem gdbm_failure_atomic_spec_witness :
    gdbm_failure_atomic_model false (some "a") (some "b") snapInitState
        true true 7 8 GdbmErr.noError GdbmErr.noError
        ⟨true, true, CloneRes.cloneOk, true, true, true, true, true⟩
      = (0, ⟨7, 8, 1⟩, GdbmErr.noError, false) :=
  (gdbm_failure_atomic_spec (some "a") (some "b") snapInitState true true
      7 8 GdbmErr.noError GdbmErr.noError
      ⟨true, true, CloneRes.cloneOk, true, true, true, true, true⟩
      (by norm_num) (by norm_num)).2.2.1 (by decide) rfl rfl rfl rfl
      (by decide)

/- ------------------------------------------------------------------ -/
/- C2: the dirty-sequence invariant of the bucket cache                -/
/- (src/src/bucket.c: cache_lookup 295-353, _gdbm_split_bucket 448-668,-/
/- _gdbm_cache_flush 758-768)                                          -/
/- ------------------------------------------------------------------ -/

/-- One bucket-cache entry as seen from the LRU list: the bucket file
address ca_adr and the ca_changed flag. -/
structure CacheEnt where
  adr : Nat
  changed : Bool
deriving DecidableEq, Repr

/-- The dirty-sequence property over the MRU-ordered cache list (head =
cache_mru): the changed entries form a contiguous prefix — once a clean
entry is reached, every later entry is clean. -/
def dirtySeq : List CacheEnt → Bool
  | [] => true
  | e :: rest =>
      if e.changed then dirtySeq rest
      else rest.all (fun x => !x.changed)

/-- Embedding of _gdbm_cache_flush (src/src/bucket.c, lines 758-768): walk
from cache_mru while entries are changed, writing each bucket out
(_gdbm_write_bucket clears ca_changed); the walk stops at the first clean
entry. -/
def cacheFlush : List CacheEnt → List CacheEnt
  | [] => []
  | e :: rest =>
      if e.changed then { e with changed := false } :: cacheFlush rest
      else e :: rest

/-- Embedding of the cache-hit path of cache_lookup with ref = NULL
(src/src/bucket.c, lines 295-353): the found element at position i is
unlinked from the LRU list; if it is clean and about to become current, all
changed elements are first flushed; the element is then linked at the
head. -/
def cacheLookupFound (l : List CacheEnt) (i : Fin l.length) : List CacheEnt :=
  let e := l.get i
  e :: (if e.changed then l.eraseIdx i.val
        else cacheFlush (l.eraseIdx i.val))

/-- Embedding of the cache-miss path of cache_lookup with ref = NULL: the
freshly created element is clean (cache_elem_new sets ca_changed = FALSE),
so the changed elements are flushed before it is linked at the head. -/
def cacheLookupNew (l : List CacheEnt) (a : Nat) : List CacheEnt :=
  CacheEnt.mk a false :: cacheFlush l

/-- Embedding of the mutation paths that mark the current (MRU) bucket
modified (store/delete set cache_mru->ca_changed = TRUE). -/
def markMruChanged : List CacheEnt → List CacheEnt
  | [] => []
  | e :: rest => { e with changed := true } :: rest

/-- Embedding of the cache manipulation performed by one iteration of
_gdbm_split_bucket (src/src/bucket.c, lines 464-660) on the MRU list, the
old full bucket m being the MRU entry: the two fresh buckets adr0/adr1 are
created clean and linked immediately after cache_mru (cache_lookup with ref
= cache_mru resp. newcache[0]); both are then marked changed; the old
entry is freed (cache_elem_free on cache_mru); finally the bucket covering
the inserted key is moved to the head (promoteSecond is true when the
directory made newcache[1] the target, in which case the code swaps the
two and re-links). -/
def splitCacheUpdate (m : CacheEnt) (rest : List CacheEnt) (adr0 adr1 : Nat)
    (promoteSecond : Bool) : List CacheEnt :=
  let l1 := m :: CacheEnt.mk adr0 false :: CacheEnt.mk adr1 false :: rest
  let l2 :=
    match l1 with
    | m' :: e0 :: e1 :: r =>
        m' :: { e0 with changed := true } :: { e1 with changed := true } :: r
    | l => l
  let l3 := l2.eraseIdx 0
  if promoteSecond then
    match l3 with
    | e0 :: e1 :: r => e1 :: e0 :: r
    | l => l
  else l3

/-- Helper lemma: an all-clean list satisfies the dirty-sequence
property. -/
theorem dirtySeq_of_all_clean :
    ∀ l : List CacheEnt, l.all (fun x => !x.changed) = true →
      dirtySeq l = true
  | [], _ => rfl
  | e :: rest, h => by
      simp only [List.all_cons, Bool.and_eq_true, Bool.not_eq_true'] at h
      simp [dirtySeq, h.1, h.2]

/-- Helper lemma: flushing a dirty-sequence list leaves every entry
clean. -/
theorem cacheFlush_all_clean :
    ∀ l : List CacheEnt, dirtySeq l = true →
      (cacheFlush l).all (fun x => !x.changed) = true
  | [], _ => rfl
  | e :: rest, h => by
      by_cases hc : e.changed = true
      · have h' : dirtySeq rest = true := by simpa [dirtySeq, hc] using h
        simp [cacheFlush, hc, cacheFlush_all_clean rest h']
      · have hc' : e.changed = false := by simpa using hc
        have h' : rest.all (fun x => !x.changed) = true := by
          simpa [dirtySeq, hc'] using h
        simp [cacheFlush, hc', h']

/-- Helper lemma: the tail of a dirty-sequence list is a dirty-sequence
list. -/
theorem dirtySeq_tail (e : CacheEnt) (l : List CacheEnt)
    (h : dirtySeq (e :: l) = true) : dirtySeq l = true := by
  by_cases hc : e.changed = true
  · simpa [dirtySeq, hc] using h
  · have hc' : e.changed = false := by simpa using hc
    exact dirtySeq_of_all_clean l (by simpa [dirtySeq, hc'] using h)

/-- Helper lemma: removing any element preserves the dirty-sequence
property. -/
theorem dirtySeq_eraseIdx :
    ∀ (l : List CacheEnt) (i : Nat), dirtySeq l = true →
      dirtySeq (l.eraseIdx i) = true
  | [], _, h => by simpa using h
  | e :: rest, 0, h => by
      simpa [List.eraseIdx] using dirtySeq_tail e rest h
  | e :: rest, i + 1, h => by
      simp only [List.eraseIdx]
      by_cases hc : e.changed = true
      · have h' : dirtySeq rest = true := by simpa [dirtySeq, hc] using h
        simpa [dirtySeq, hc] using dirtySeq_eraseIdx rest i h'
      · have hc' : e.changed = false := by simpa using hc
        have hall : rest.all (fun x => !x.changed) = true := by
          simpa [dirtySeq, hc'] using h
        simp only [dirtySeq, hc', Bool.false_eq_true, if_false]
        rw [List.all_eq_true] at hall ⊢
        intro x hx
        exact hall x ((List.eraseIdx_sublist rest i).subset hx)

/-- C2: if the changed cache entries form a contiguous prefix of the
MRU-ordered cache list, then every cache operation of the engine preserves
this: flushing, a lookup promoting a found entry to the head (flushing
first when that entry is clean), a lookup inserting a fresh clean entry at
the head (flushing first), removing any entry (LRU eviction or
cache_elem_free), marking the current bucket modified, and the split
update, which links the two fresh changed buckets immediately after the
old MRU entry before freeing it. -/
theorem cache_dirty_sequence_invariant (l : List CacheEnt)
    (h : dirtySeq l = true) :
    dirtySeq (cacheFlush l) = true ∧
    (∀ i : Fin l.length, dirtySeq (cacheLookupFound l i) = true) ∧
    (∀ a : Nat, dirtySeq (cacheLookupNew l a) = true) ∧
    (∀ i : Nat, dirtySeq (l.eraseIdx i) = true) ∧
    dirtySeq (markMruChanged l) = true ∧
    (∀ m rest adr0 adr1 promoteSecond, l = m :: rest →
      dirtySeq (splitCacheUpdate m rest adr0 adr1 promoteSecond) = true) := by
  refine ⟨?_, ?_, ?_, ?_, ?_, ?_⟩
  · exact dirtySeq_of_all_clean _ (cacheFlush_all_clean l h)
  · intro i
    have herase := dirtySeq_eraseIdx l i.val h
    by_cases hc : (l.get i).changed = true
    · simp only [List.get_eq_getElem] at hc
      simpa [cacheLookupFound, dirtySeq, hc] using herase
    · have hc' : (l.get i).changed = false := by simpa using hc
      simp only [List.get_eq_getElem] at hc'
      have hall : ∀ x ∈ cacheFlush (l.eraseIdx i.val), x.changed = false := by
        simpa [List.all_eq_true] using cacheFlush_all_clean _ herase
      simp only [cacheLookupFound, List.get_eq_getElem, dirtySeq, hc',
        Bool.false_eq_true, if_false, List.all_eq_true, Bool.not_eq_true']
      exact hall
  · intro a
    simpa [cacheLookupNew, dirtySeq] using cacheFlush_all_clean l h
  · intro i
    exact dirtySeq_eraseIdx l i h
  · cases l with
    | nil => rfl
    | cons e rest =>
        simpa [markMruChanged, dirtySeq] using dirtySeq_tail e rest h
  · intro m rest adr0 adr1 promoteSecond hl
    subst hl
    have hrest := dirtySeq_tail m rest h
    cases promoteSecond <;>
      simpa [splitCacheUpdate, List.eraseIdx, dirtySeq] using hrest

/-- C2 witness: the invariant steps applied to the concrete two-element
cache [dirty, clean]: a fresh clean lookup flushes first and keeps the
dirty entries a contiguous prefix. -/
theorem cache_dirty_sequence_invariant_witness :
    dirtySeq (cacheLookupNew [CacheEnt.mk 1 true, CacheEnt.mk 2 false] 3)
      = true ∧
    dirtySeq (splitCacheUpdate (CacheEnt.mk 1 true) [CacheEnt.mk 2 false]
      4 5 true) = true := by
  have h := cache_dirty_sequence_invariant
    [CacheEnt.mk 1 true, CacheEnt.mk 2 false] (by decide)
  exact ⟨h.2.2.1 3,
    h.2.2.2.2.2 (CacheEnt.mk 1 true) [CacheEnt.mk 2 false] 4 5 true rfl⟩

/- ------------------------------------------------------------------ -/
/- C3: slot redistribution in _gdbm_split_bucket                       -/
/- (src/src/bucket.c, lines 570-590)                                   -/
/- ------------------------------------------------------------------ -/

/-- Number of significant bits of the gdbm hash function. -/
def GDBM_HASH_BITS : Nat := 31

/-- One bucket slot (bucket_element): the 31-bit hash_value (-1 marks an
empty slot) and an abstract identifier standing for the remaining fields
(key_size, data_size, data_pointer, key_start). -/
structure BSlot where
  hash_value : Int
  payload : Nat
deriving DecidableEq, Repr

/-- The empty slot: hash_value -1, as set by _gdbm_new_bucket. -/
def emptySlot : BSlot := ⟨-1, 0⟩

/-- A bucket as manipulated by the split: its slot table h_table (of length
bucket_elems) and its count of live slots. -/
structure SBucket where
  h_table : List BSlot
  count : Nat
deriving DecidableEq, Repr

/-- Slot table of a bucket freshly initialized by _gdbm_new_bucket
(src/src/bucket.c, lines 28-43): every hash_value is -1. -/
def newBucketTable (elems : Nat) : List BSlot :=
  List.replicate elems emptySlot

/-- The live slots of a table: those whose hash_value is not -1. -/
def liveSlots (tbl : List BSlot) : List BSlot :=
  tbl.filter (fun s => decide (s.hash_value ≠ -1))

/-- The linear probe of the redistribution loop (src/src/bucket.c, lines
585-587): starting from slot `start`, advance cyclically until an empty
slot is found.  The result is the probe distance to the first empty slot
(none when the table has no empty slot, in which case the C loop would not
terminate). -/
def probeOffset (tbl : List BSlot) (start : Nat) : Option Nat :=
  (List.range tbl.length).find?
    (fun d =>
      decide ((tbl.getD ((start + d) % tbl.length) emptySlot).hash_value = -1))

/-- One slot insertion of the redistribution loop: probe linearly from
hash_value % bucket_elems and store the slot into the first empty
position. -/
def bucketInsertSlot (tbl : List BSlot) (s : BSlot) : Option (List BSlot) :=
  match probeOffset tbl (s.hash_value.toNat % tbl.length) with
  | some d => some (tbl.set ((s.hash_value.toNat % tbl.length + d) % tbl.length) s)
  | none => none

/-- The bucket selector of the redistribution loop (src/src/bucket.c, line
584): bit (hash_value >> (GDBM_HASH_BITS - new_bits)) & 1 chooses between
newcache[0] and newcache[1]. -/
def splitSelect (newBits : Nat) (s : BSlot) : Nat :=
  (s.hash_value.toNat >>> (GDBM_HASH_BITS - newBits)) &&& 1

/-- Failures of the redistribution loop: a slot with negative hash_value
(GDBM_BAD_BUCKET), or a probe that finds no empty slot (the C loop would
spin forever; this cannot happen when the two buckets can hold all
slots). -/
inductive SplitErr where
  | badBucket
  | probeLoop
deriving DecidableEq, Repr

/-- Embedding of the redistribution loop of _gdbm_split_bucket
(src/src/bucket.c, lines 570-590): every slot of the old bucket is examined
in index order; a negative hash_value raises GDBM_BAD_BUCKET; otherwise the
slot is inserted by linear probing into the bucket chosen by splitSelect,
whose count is incremented. -/
def splitRedistribute (newBits : Nat) :
    List BSlot → SBucket → SBucket → Except SplitErr (SBucket × SBucket)
  | [], b0, b1 => Except.ok (b0, b1)
  | s :: rest, b0, b1 =>
      if s.hash_value < 0 then Except.error SplitErr.badBucket
      else if splitSelect newBits s = 1 then
        match bucketInsertSlot b1.h_table s with
        | some t => splitRedistribute newBits rest b0 ⟨t, b1.count + 1⟩
        | none => Except.error SplitErr.probeLoop
      else
        match bucketInsertSlot b0.h_table s with
        | some t => splitRedistribute newBits rest ⟨t, b0.count + 1⟩ b1
        | none => Except.error SplitErr.probeLoop

/-- The whole redistribution of _gdbm_split_bucket: both new buckets start
empty with bucket_elems slots (as set up by _gdbm_new_bucket), and every
slot of the old full bucket is reinserted. -/
def gdbm_split_redistribute (elems newBits : Nat) (old : List BSlot) :
    Except SplitErr (SBucket × SBucket) :=
  splitRedistribute newBits old ⟨newBucketTable elems, 0⟩
    ⟨newBucketTable elems, 0⟩

/-- Helper lemma: every residue j < n is hit by the cyclic probe sequence
(start + d) % n for some probe distance d < n. -/
theorem exists_probe_hit (n start j : Nat) (hj : j < n) :
    ∃ d, d < n ∧ (start + d) % n = j := by
  have hq := Nat.div_add_mod start n
  by_cases hle : start % n ≤ j
  · refine ⟨j - start % n, by omega, ?_⟩
    have he : start + (j - start % n) = n * (start / n) + j := by omega
    rw [he, Nat.mul_add_mod]
    exact Nat.mod_eq_of_lt hj
  · have hr : start % n < n := Nat.mod_lt start (by omega)
    refine ⟨j + n - start % n, by omega, ?_⟩
    have he : start + (j + n - start % n) = n * (start / n) + n + j := by
      omega
    have h2 : n * (start / n) + n + j = n * (start / n + 1) + j := by ring
    rw [he, h2, Nat.mul_add_mod]
    exact Nat.mod_eq_of_lt hj

/-- Helper lemma: a table with fewer live slots than entries has an empty
position. -/
theorem exists_empty_of_live_lt :
    ∀ tbl : List BSlot, (liveSlots tbl).length < tbl.length →
      ∃ j, j < tbl.length ∧ (tbl.getD j emptySlot).hash_value = -1
  | [], h => by simp [liveSlots] at h
  | e :: rest, h => by
      by_cases he : e.hash_value = -1
      · exact ⟨0, by simp, by simpa using he⟩
      · have hlive : liveSlots (e :: rest) = e :: liveSlots rest := by
          simp [liveSlots, he]
        rw [hlive] at h
        simp only [List.length_cons, Nat.add_lt_add_iff_right] at h
        obtain ⟨j, hj, hje⟩ := exists_empty_of_live_lt rest (by simpa using h)
        exact ⟨j + 1, by simpa using hj, by simpa using hje⟩

/-- Helper lemma: writing a live slot over an empty position makes the live
slots of the table exactly the old ones plus the new slot. -/
theorem liveSlots_set :
    ∀ (tbl : List BSlot) (j : Nat), j < tbl.length →
      (tbl.getD j emptySlot).hash_value = -1 →
      ∀ s : BSlot, s.hash_value ≠ -1 →
        (liveSlots (tbl.set j s)).Perm (s :: liveSlots tbl)
  | [], j, hj, _, _, _ => by simp at hj
  | e :: rest, 0, _, hemp, s, hs => by
      have he : e.hash_value = -1 := by simpa using hemp
      simp [liveSlots, he, hs]
  | e :: rest, j + 1, hj, hemp, s, hs => by
      have hj' : j < rest.length := by simpa using hj
      have hemp' : (rest.getD j emptySlot).hash_value = -1 := by
        simpa using hemp
      have ih := liveSlots_set rest j hj' hemp' s hs
      by_cases he : e.hash_value = -1
      · simpa [liveSlots, List.set, he] using ih
      · have h1 : liveSlots ((e :: rest).set (j + 1) s)
            = e :: liveSlots (rest.set j s) := by
          simp [liveSlots, List.set, he]
        have h2 : liveSlots (e :: rest) = e :: liveSlots rest := by
          simp [liveSlots, he]
        rw [h1, h2]
        exact ((ih.cons e).trans (List.Perm.swap s e _))

/-- Helper lemma: inserting a live slot into a not-yet-full table by linear
probing succeeds and adds the slot to the live slots. -/
theorem bucketInsertSlot_not_full (tbl : List BSlot) (s : BSlot)
    (hs : 0 ≤ s.hash_value)
    (hlt : (liveSlots tbl).length < tbl.length) :
    ∃ t, bucketInsertSlot tbl s = some t ∧ t.length = tbl.length ∧
      (liveSlots t).Perm (s :: liveSlots tbl) := by
  have hn : 0 < tbl.length := Nat.lt_of_le_of_lt (Nat.zero_le _) hlt
  obtain ⟨j, hj, hje⟩ := exists_empty_of_live_lt tbl hlt
  obtain ⟨d, hd, hhit⟩ :=
    exists_probe_hit tbl.length (s.hash_value.toNat % tbl.length) j hj
  have hfind : (probeOffset tbl (s.hash_value.toNat % tbl.length)).isSome := by
    rw [probeOffset, List.find?_isSome]
    exact ⟨d, List.mem_range.mpr hd, by simp only [hhit, decide_eq_true_eq]; exact hje⟩
  obtain ⟨d0, hd0⟩ := Option.isSome_iff_exists.mp hfind
  have hp := List.find?_some hd0
  simp only [decide_eq_true_eq] at hp
  have hpos : (s.hash_value.toNat % tbl.length + d0) % tbl.length
      < tbl.length := Nat.mod_lt _ hn
  have hsne : s.hash_value ≠ -1 := by omega
  refine ⟨tbl.set ((s.hash_value.toNat % tbl.length + d0) % tbl.length) s,
    ?_, by simp, liveSlots_set tbl _ hpos hp s hsne⟩
  rw [bucketInsertSlot, hd0]

/-- Helper lemma: a filter and its negation split the length of a list. -/
theorem length_filter_bool_split :
    ∀ (l : List BSlot) (p : BSlot → Bool),
      (l.filter p).length + (l.filter (fun a => !p a)).length = l.length
  | [], _ => rfl
  | a :: l, p => by
      have ih := length_filter_bool_split l p
      by_cases h : p a = true <;> simp [List.filter_cons, h] <;> omega

/-- Helper lemma: the fresh bucket table of a split has no live slots. -/
theorem liveSlots_newBucketTable (elems : Nat) :
    liveSlots (newBucketTable elems) = [] := by
  simp [liveSlots, newBucketTable, List.filter_replicate, emptySlot]

/-- Helper lemma: when every pending slot is live and the two buckets have
room for all of them, the redistribution loop succeeds, each slot landing
in the bucket chosen by its selector bit and each bucket count growing
accordingly. -/
theorem splitRedistribute_ok (newBits elems : Nat) :
    ∀ (pending : List BSlot) (b0 b1 : SBucket),
      b0.h_table.length = elems → b1.h_table.length = elems →
      (liveSlots b0.h_table).length = b0.count →
      (liveSlots b1.h_table).length = b1.count →
      b0.count + b1.count + pending.length ≤ elems →
      (∀ s ∈ pending, 0 ≤ s.hash_value) →
      ∃ b0' b1',
        splitRedistribute newBits pending b0 b1 = Except.ok (b0', b1') ∧
        b0'.count = b0.count +
          (pending.filter
            (fun s => !decide (splitSelect newBits s = 1))).length ∧
        b1'.count = b1.count +
          (pending.filter
            (fun s => decide (splitSelect newBits s = 1))).length ∧
        (liveSlots b0'.h_table).Perm
          ((pending.filter (fun s => !decide (splitSelect newBits s = 1)))
            ++ liveSlots b0.h_table) ∧
        (liveSlots b1'.h_table).Perm
          ((pending.filter (fun s => decide (splitSelect newBits s = 1)))
            ++ liveSlots b1.h_table)
  | [], b0, b1, _, _, _, _, _, _ =>
      ⟨b0, b1, rfl, by simp, by simp, by simp, by simp⟩
  | s :: rest, b0, b1, h0, h1, hc0, hc1, hsum, hpos => by
      have hs : 0 ≤ s.hash_value := hpos s (by simp)
      have hneg : ¬ s.hash_value < 0 := by omega
      have hsum' : b0.count + b1.count + (rest.length + 1) ≤ elems := by
        simpa using hsum
      by_cases hsel : splitSelect newBits s = 1
      · have hf1 : ((s :: rest).filter
            (fun x => decide (splitSelect newBits x = 1)))
            = s :: rest.filter (fun x => decide (splitSelect newBits x = 1)) := by
          simp [List.filter_cons, hsel]
        have hf0 : ((s :: rest).filter
            (fun x => !decide (splitSelect newBits x = 1)))
            = rest.filter (fun x => !decide (splitSelect newBits x = 1)) := by
          simp [List.filter_cons, hsel]
        have hlt : (liveSlots b1.h_table).length < b1.h_table.length := by
          rw [hc1, h1]; omega
        obtain ⟨t, hins, htlen, hperm⟩ :=
          bucketInsertSlot_not_full b1.h_table s hs hlt
        obtain ⟨b0', b1', hrec, hcnt0, hcnt1, hp0, hp1⟩ :=
          splitRedistribute_ok newBits elems rest b0 ⟨t, b1.count + 1⟩
            h0 (htlen.trans h1)
            hc0 (by simpa [hc1] using hperm.length_eq)
            (by dsimp only; omega) (fun x hx => hpos x (by simp [hx]))
        have hcnt1' : b1'.count = b1.count + 1 +
            (rest.filter (fun x => decide (splitSelect newBits x = 1))).length :=
          hcnt1
        have hp1' : (liveSlots b1'.h_table).Perm
            ((rest.filter (fun x => decide (splitSelect newBits x = 1)))
              ++ liveSlots t) := hp1
        refine ⟨b0', b1', ?_, ?_, ?_, ?_, ?_⟩
        · rw [splitRedistribute, if_neg hneg, if_pos hsel, hins]
          exact hrec
        · rw [hf0]
          exact hcnt0
        · rw [hf1]
          simp only [List.length_cons]
          omega
        · rw [hf0]
          exact hp0
        · rw [hf1]
          exact hp1'.trans ((hperm.append_left _).trans List.perm_middle)
      · have hf1 : ((s :: rest).filter
            (fun x => decide (splitSelect newBits x = 1)))
            = rest.filter (fun x => decide (splitSelect newBits x = 1)) := by
          simp [List.filter_cons, hsel]
        have hf0 : ((s :: rest).filter
            (fun x => !decide (splitSelect newBits x = 1)))
            = s :: rest.filter (fun x => !decide (splitSelect newBits x = 1)) := by
          simp [List.filter_cons, hsel]
        have hlt : (liveSlots b0.h_table).length < b0.h_table.length := by
          rw [hc0, h0]; omega
        obtain ⟨t, hins, htlen, hperm⟩ :=
          bucketInsertSlot_not_full b0.h_table s hs hlt
        obtain ⟨b0', b1', hrec, hcnt0, hcnt1, hp0, hp1⟩ :=
          splitRedistribute_ok newBits elems rest ⟨t, b0.count + 1⟩ b1
            (htlen.trans h0) h1
            (by simpa [hc0] using hperm.length_eq) hc1
            (by dsimp only; omega) (fun x hx => hpos x (by simp [hx]))
        have hcnt0' : b0'.count = b0.count + 1 +
            (rest.filter (fun x => !decide (splitSelect newBits x = 1))).length :=
          hcnt0
        have hp0' : (liveSlots b0'.h_table).Perm
            ((rest.filter (fun x => !decide (splitSelect newBits x = 1)))
              ++ liveSlots t) := hp0
        refine ⟨b0', b1', ?_, ?_, ?_, ?_, ?_⟩
        · rw [splitRedistribute, if_neg hneg, if_neg hsel, hins]
          exact hrec
        · rw [hf0]
          simp only [List.length_cons]
          omega
        · rw [hf1]
          exact hcnt1
        · rw [hf0]
          exact hp0'.trans ((hperm.append_left _).trans List.perm_middle)
        · rw [hf1]
          exact hp1

/-- Helper lemma: a pending slot with negative hash_value makes the
redistribution loop fail with GDBM_BAD_BUCKET (the preceding live slots do
not run out of room, so the failure is reached). -/
theorem splitRedistribute_badBucket (newBits elems : Nat) :
    ∀ (pending : List BSlot) (b0 b1 : SBucket),
      b0.h_table.length = elems → b1.h_table.length = elems →
      (liveSlots b0.h_table).length = b0.count →
      (liveSlots b1.h_table).length = b1.count →
      b0.count + b1.count + pending.length ≤ elems →
      (∃ s ∈ pending, s.hash_value < 0) →
      splitRedistribute newBits pending b0 b1
        = Except.error SplitErr.badBucket
  | [], _, _, _, _, _, _, _, hex => by simp at hex
  | s :: rest, b0, b1, h0, h1, hc0, hc1, hsum, hex => by
      have hsum' : b0.count + b1.count + (rest.length + 1) ≤ elems := by
        simpa using hsum
      by_cases hneg : s.hash_value < 0
      · rw [splitRedistribute, if_pos hneg]
      · have hs : 0 ≤ s.hash_value := by omega
        have hex' : ∃ x ∈ rest, x.hash_value < 0 := by
          rcases hex with ⟨x, hx, hxneg⟩
          rcases List.mem_cons.mp hx with h | h
          · exact absurd (h ▸ hxneg) hneg
          · exact ⟨x, h, hxneg⟩
        by_cases hsel : splitSelect newBits s = 1
        · have hlt : (liveSlots b1.h_table).length < b1.h_table.length := by
            rw [hc1, h1]; omega
          obtain ⟨t, hins, htlen, hperm⟩ :=
            bucketInsertSlot_not_full b1.h_table s hs hlt
          rw [splitRedistribute, if_neg hneg, if_pos hsel, hins]
          exact splitRedistribute_badBucket newBits elems rest b0
            ⟨t, b1.count + 1⟩ h0 (htlen.trans h1) hc0
            (by simpa [hc1] using hperm.length_eq) (by dsimp only; omega)
            hex'
        · have hlt : (liveSlots b0.h_table).length < b0.h_table.length := by
            rw [hc0, h0]; omega
          obtain ⟨t, hins, htlen, hperm⟩ :=
            bucketInsertSlot_not_full b0.h_table s hs hlt
          rw [splitRedistribute, if_neg hneg, if_neg hsel, hins]
          exact splitRedistribute_badBucket newBits elems rest
            ⟨t, b0.count + 1⟩ b1 (htlen.trans h0) h1
            (by simpa [hc0] using hperm.length_eq) hc1
            (by dsimp only; omega) hex'

/-- C3: when _gdbm_split_bucket splits a full bucket (its table holding
bucket_elems slots), every slot with non-negative hash_value is reinserted
by linear probing from hash_value mod bucket_elems into exactly one of the
two new buckets — the one selected by bit
(hash_value >> (31 - new_bits)) & 1 — so the live slots of the two new
buckets partition the old slots by that bit and their counts sum to
bucket_elems; a slot with negative hash_value encountered during the
redistribution makes the operation fail with BadBucket. -/
theorem gdbm_split_bucket_redistribution (elems newBits : Nat)
    (old : List BSlot) (hlen : old.length = elems) :
    ((∀ s ∈ old, 0 ≤ s.hash_value) →
      ∃ b0 b1,
        gdbm_split_redistribute elems newBits old = Except.ok (b0, b1) ∧
        b0.count + b1.count = elems ∧
        b0.count = (old.filter
          (fun s => !decide (splitSelect newBits s = 1))).length ∧
        b1.count = (old.filter
          (fun s => decide (splitSelect newBits s = 1))).length ∧
        (liveSlots b0.h_table).Perm
          (old.filter (fun s => !decide (splitSelect newBits s = 1))) ∧
        (liveSlots b1.h_table).Perm
          (old.filter (fun s => decide (splitSelect newBits s = 1)))) ∧
    ((∃ s ∈ old, s.hash_value < 0) →
      gdbm_split_redistribute elems newBits old
        = Except.error SplitErr.badBucket) := by
  constructor
  · intro hpos
    obtain ⟨b0, b1, hrun, hcnt0, hcnt1, hp0, hp1⟩ :=
      splitRedistribute_ok newBits elems old
        ⟨newBucketTable elems, 0⟩ ⟨newBucketTable elems, 0⟩
        (by simp [newBucketTable]) (by simp [newBucketTable])
        (by simp [liveSlots_newBucketTable])
        (by simp [liveSlots_newBucketTable])
        (by simpa using Nat.le_of_eq hlen) hpos
    have hcnt0' : b0.count = (old.filter
        (fun s => !decide (splitSelect newBits s = 1))).length := by
      simpa using hcnt0
    have hcnt1' : b1.count = (old.filter
        (fun s => decide (splitSelect newBits s = 1))).length := by
      simpa using hcnt1
    refine ⟨b0, b1, hrun, ?_, hcnt0', hcnt1',
      by simpa [liveSlots_newBucketTable] using hp0,
      by simpa [liveSlots_newBucketTable] using hp1⟩
    have hsplit := length_filter_bool_split old
      (fun s => decide (splitSelect newBits s = 1))
    rw [hcnt0', hcnt1', ← hlen]
    omega
  · intro hex
    exact splitRedistribute_badBucket newBits elems old
      ⟨newBucketTable elems, 0⟩ ⟨newBucketTable elems, 0⟩
      (by simp [newBucketTable]) (by simp [newBucketTable])
      (by simp [liveSlots_newBucketTable])
      (by simp [liveSlots_newBucketTable])
      (by simpa using Nat.le_of_eq hlen) hex

/-- C3 witness: splitting a full two-slot bucket with new_bits 1; the slot
with hash 0 goes to bucket 0, the slot with hash 2^30 (selector bit 1) to
bucket 1, and the counts sum to bucket_elems = 2. -/
theorem gdbm_split_bucket_redistribution_witness :
    ∃ b0 b1,
      gdbm_split_redistribute 2 1 [⟨0, 10⟩, ⟨2 ^ 30, 20⟩]
        = Except.ok (b0, b1) ∧ b0.count + b1.count = 2 ∧
      b0.count = 1 ∧ b1.count = 1 := by
  obtain ⟨b0, b1, hrun, hsum, hc0, hc1, _, _⟩ :=
    (gdbm_split_bucket_redistribution 2 1 [⟨0, 10⟩, ⟨2 ^ 30, 20⟩] rfl).1
      (by decide)
  exact ⟨b0, b1, hrun, hsum, by rw [hc0]; decide, by rw [hc1]; decide⟩

/- ------------------------------------------------------------------ -/
/- C7: gdbm_avail_traverse (src/src/avail.c, lines 105-290)            -/
/- ------------------------------------------------------------------ -/

/-- An avail block as seen by the traversal: whether the block image read
by _gdbm_avail_block_read passes validation, and its next_block chain
pointer. -/
structure TravBlk where
  valid : Bool
  next : Nat
deriving DecidableEq, Repr

/-- The file content as a map from block offsets to avail blocks; reading
at an offset not in the map models a seek/read failure. -/
def availRead : List (Nat × TravBlk) → Nat → Option TravBlk
  | [], _ => none
  | (k, b) :: rest, n => if n = k then some b else availRead rest n

/-- Embedding of the insertion part of off_map_lookup (src/src/avail.c,
lines 149-185): the visited set is kept as a list sorted in increasing
order and the new offset is inserted at its ordered position (the C code
finds the position by binary search and shifts the tail with memmove). -/
def off_map_insert_pos : List Nat → Nat → List Nat
  | [], n => [n]
  | x :: rest, n => if n < x then n :: x :: rest else x :: off_map_insert_pos rest n

/-- Helper lemma: membership in the ordered insertion. -/
theorem mem_off_map_insert_pos :
    ∀ (v : List Nat) (n m : Nat),
      m ∈ off_map_insert_pos v n ↔ m = n ∨ m ∈ v
  | [], n, m => by simp [off_map_insert_pos]
  | x :: rest, n, m => by
      by_cases h : n < x
      · simp [off_map_insert_pos, h]
      · simp only [off_map_insert_pos, h, if_false, List.mem_cons,
          mem_off_map_insert_pos rest n m]
        tauto

/-- Helper lemma: ordered insertion of a fresh offset keeps the visited
set sorted in strictly increasing order. -/
theorem off_map_insert_pos_sorted :
    ∀ (v : List Nat) (n : Nat), List.Sorted (· < ·) v → n ∉ v →
      List.Sorted (· < ·) (off_map_insert_pos v n)
  | [], n, _, _ => by simp [off_map_insert_pos]
  | x :: rest, n, hs, hn => by
      rw [List.sorted_cons] at hs
      by_cases h : n < x
      · rw [off_map_insert_pos, if_pos h, List.sorted_cons]
        refine ⟨?_, List.sorted_cons.mpr hs⟩
        intro b hb
        rcases List.mem_cons.mp hb with rfl | hb
        · exact h
        · exact Nat.lt_trans h (hs.1 b hb)
      · have hxn : x < n := by
          rcases Nat.lt_trichotomy n x with hlt | heq | hgt
          · exact absurd hlt h
          · exact absurd (heq ▸ List.mem_cons_self x rest) hn
          · exact hgt
        rw [off_map_insert_pos, if_neg h, List.sorted_cons]
        refine ⟨?_, off_map_insert_pos_sorted rest n hs.2
          (fun hc => hn (List.mem_cons_of_mem x hc))⟩
        intro b hb
        rcases (mem_off_map_insert_pos rest n b).mp hb with rfl | hb
        · exact hxn
        · exact hs.1 b hb

/-- Helper lemma: a successful read names an offset present in the file
map. -/
theorem availRead_mem :
    ∀ (file : List (Nat × TravBlk)) (n : Nat) (b : TravBlk),
      availRead file n = some b → n ∈ file.map Prod.fst
  | [], n, b, h => by simp [availRead] at h
  | (k, v) :: rest, n, b, h => by
      by_cases hk : n = k
      · simp [hk]
      · rw [availRead, if_neg hk] at h
        exact List.mem_cons.mpr (Or.inr (availRead_mem rest n b h))

/-- Helper lemma: a filter by a weaker predicate is at most as long. -/
theorem length_filter_le_of_imp {α : Type} (l : List α) (p q : α → Bool)
    (h : ∀ a, q a = true → p a = true) :
    (l.filter q).length ≤ (l.filter p).length := by
  induction l with
  | nil => simp
  | cons a t ih =>
      by_cases hq : q a = true
      · simp [List.filter_cons, hq, h a hq]
        omega
      · have hq' : q a = false := by simpa using hq
        by_cases hp : p a = true <;> simp [List.filter_cons, hq', hp] <;>
          omega

/-- Helper lemma: a filter by a strictly weaker predicate (witnessed by one
element of the list) is strictly shorter. -/
theorem length_filter_lt_of_witness {α : Type} (l : List α) (p q : α → Bool)
    (h : ∀ a, q a = true → p a = true) (a : α) (ha : a ∈ l)
    (hpa : p a = true) (hqa : q a = false) :
    (l.filter q).length < (l.filter p).length := by
  induction l with
  | nil => cases ha
  | cons b t ih =>
      rcases List.mem_cons.mp ha with rfl | hmem
      · have hle := length_filter_le_of_imp t p q h
        simp [List.filter_cons, hpa, hqa]
        omega
      · by_cases hqb : q b = true
        · have hlt := ih hmem
          simp [List.filter_cons, hqb, h b hqb]
          omega
        · have hqb' : q b = false := by simpa using hqb
          have hlt := ih hmem
          by_cases hpb : p b = true <;>
            simp [List.filter_cons, hqb', hpb] <;> omega

/-- Embedding of the traversal loop of gdbm_avail_traverse
(src/src/avail.c, lines 206-276) with a NULL callback (gdbm_avail_verify)
on the success path of the allocator: while the chain pointer n is nonzero,
off_map_lookup checks n against the sorted visited set — an offset already
present stops the traversal with GDBM_BAD_AVAIL (GDBM_CANNOT_REPLACE), a
fresh one is inserted in order; the block is then read (a seek/read failure
stops with an error) and validated (GDBM_BAD_AVAIL on failure), and the
loop follows its next_block.  The function is total: it needs no fuel, the
visited set grows inside the finite set of file offsets. -/
def gdbm_avail_traverse_loop (file : List (Nat × TravBlk))
    (visited : List Nat) (n : Nat) : Except GdbmErr Unit :=
  if n = 0 then Except.ok ()
  else if n ∈ visited then Except.error GdbmErr.badAvail
  else
    match hrd : availRead file n with
    | none => Except.error GdbmErr.fileSeekError
    | some blk =>
        if blk.valid then
          gdbm_avail_traverse_loop file (off_map_insert_pos visited n)
            blk.next
        else Except.error GdbmErr.badAvail
termination_by
  ((file.map Prod.fst).filter (fun k => !decide (k ∈ visited))).length
decreasing_by
  rename_i hz hmem hval
  exact length_filter_lt_of_witness (file.map Prod.fst) _ _
    (by
      intro a ha
      simp only [Bool.not_eq_true', decide_eq_false_iff_not] at ha ⊢
      intro hc
      exact ha ((mem_off_map_insert_pos visited n a).mpr (Or.inr hc)))
    n (availRead_mem file n blk hrd)
    (by simpa using hmem)
    (by simp [(mem_off_map_insert_pos visited n n).mpr (Or.inl rfl)])

/-- Embedding of gdbm_avail_traverse with NULL callback, i.e.
gdbm_avail_verify (src/src/avail.c, lines 206-290): the inline header
avail block is validated first, its offset is recorded as visited, and the
chain hanging off its next_block is walked. -/
def gdbm_avail_verify_model (headerValid : Bool) (headerOff startNext : Nat)
    (file : List (Nat × TravBlk)) : Except GdbmErr Unit :=
  if ¬ headerValid then Except.error GdbmErr.badAvail
  else gdbm_avail_traverse_loop file (off_map_insert_pos [] headerOff)
    startNext

/-- A valid, acyclic avail chain: starting at offset n, the listed offsets
are visited in order, each block reads successfully and validates, and the
last block's next_block is zero. -/
def ChainTo (file : List (Nat × TravBlk)) : List Nat → Nat → Prop
  | [], n => n = 0
  | o :: rest, n => n = o ∧ n ≠ 0 ∧
      ∃ blk, availRead file n = some blk ∧ blk.valid = true ∧
        ChainTo file rest blk.next

/-- A valid chain from offset n through the listed offsets whose last block
points at offset m. -/
def ChainFrom (file : List (Nat × TravBlk)) : List Nat → Nat → Nat → Prop
  | [], n, m => n = m
  | o :: rest, n, m => n = o ∧ n ≠ 0 ∧
      ∃ blk, availRead file n = some blk ∧ blk.valid = true ∧
        ChainFrom file rest blk.next m

/-- Helper lemma: the traversal loop walks a valid acyclic chain (disjoint
from the already visited offsets) to its end and returns 0. -/
theorem traverse_loop_ok (file : List (Nat × TravBlk)) :
    ∀ (offs visited : List Nat) (n : Nat),
      ChainTo file offs n → offs.Nodup → (∀ m ∈ offs, m ∉ visited) →
      gdbm_avail_traverse_loop file visited n = Except.ok ()
  | [], visited, n, hch, _, _ => by
      have hn : n = 0 := hch
      rw [gdbm_avail_traverse_loop, if_pos hn]
  | o :: rest, visited, n, hch, hnd, hdis => by
      obtain ⟨hno, hn0, blk, hrd, hval, hch'⟩ := hch
      have hnv : n ∉ visited := hno ▸ hdis o (List.mem_cons_self o rest)
      obtain ⟨hor, hndr⟩ := List.nodup_cons.mp hnd
      rw [gdbm_avail_traverse_loop, if_neg hn0, if_neg hnv]
      split
      · next heq => rw [heq] at hrd; cases hrd
      · next blk' heq =>
          have hbe : blk' = blk := by
            have h := heq.symm.trans hrd
            injection h
          subst hbe
          rw [if_pos hval]
          refine traverse_loop_ok file rest (off_map_insert_pos visited n)
            blk'.next hch' hndr ?_
          intro m hm hmem
          rcases (mem_off_map_insert_pos visited n m).mp hmem with rfl | hmem
          · exact (hno ▸ hor) hm
          · exact hdis m (List.mem_cons_of_mem o hm) hmem
  termination_by offs => offs.length
  decreasing_by simp

/-- Helper lemma: a valid chain that leads back to an already visited
offset (or to one of its own offsets) makes the traversal stop with
GDBM_BAD_AVAIL. -/
theorem traverse_loop_cycle (file : List (Nat × TravBlk)) :
    ∀ (offs visited : List Nat) (n m : Nat),
      ChainFrom file offs n m → offs.Nodup →
      (∀ o ∈ offs, o ∉ visited) → m ≠ 0 → (m ∈ visited ∨ m ∈ offs) →
      gdbm_avail_traverse_loop file visited n
        = Except.error GdbmErr.badAvail
  | [], visited, n, m, hch, _, hdis, hm0, hmem => by
      have hnm : n = m := hch
      subst hnm
      rcases hmem with hmem | hmem
      · rw [gdbm_avail_traverse_loop, if_neg hm0, if_pos hmem]
      · cases hmem
  | o :: rest, visited, n, m, hch, hnd, hdis, hm0, hmem => by
      obtain ⟨hno, hn0, blk, hrd, hval, hch'⟩ := hch
      have hnv : n ∉ visited := hno ▸ hdis o (List.mem_cons_self o rest)
      obtain ⟨hor, hndr⟩ := List.nodup_cons.mp hnd
      rw [gdbm_avail_traverse_loop, if_neg hn0, if_neg hnv]
      split
      · next heq => rw [heq] at hrd; cases hrd
      · next blk' heq =>
          have hbe : blk' = blk := by
            have h := heq.symm.trans hrd
            injection h
          subst hbe
          rw [if_pos hval]
          refine traverse_loop_cycle file rest (off_map_insert_pos visited n)
            blk'.next m hch' hndr ?_ hm0 ?_
          · intro o' ho' hmem'
            rcases (mem_off_map_insert_pos visited n o').mp hmem' with rfl | hmem'
            · exact (hno ▸ hor) ho'
            · exact hdis o' (List.mem_cons_of_mem o ho') hmem'
          · rcases hmem with hmem | hmem
            · exact Or.inl ((mem_off_map_insert_pos visited n m).mpr
                (Or.inr hmem))
            · rcases List.mem_cons.mp hmem with rfl | hmem
              · exact Or.inl ((mem_off_map_insert_pos visited n m).mpr
                  (Or.inl hno.symm))
              · exact Or.inr hmem
  termination_by offs => offs.length
  decreasing_by simp

/-- C7: gdbm_avail_traverse terminates on every avail stack — the loop is a
total function needing no fuel, its visited set growing inside the finite
set of file offsets — and: a chain in which every block validates and no
offset repeats (nor collides with the header avail offset) is traversed to
its end (next_block 0) with result 0; a chain leading back to an already
visited offset (itself or the header avail block) stops with BadAvail; the
visited offsets are kept as a sorted set (ordered insertion preserves
strict sortedness and adds exactly the new offset); and an invalid header
avail block fails with BadAvail. -/
theorem gdbm_avail_traverse_spec (headerOff startNext : Nat)
    (file : List (Nat × TravBlk)) :
    (∀ offs : List Nat, ChainTo file offs startNext → offs.Nodup →
      headerOff ∉ offs →
      gdbm_avail_verify_model true headerOff startNext file
        = Except.ok ()) ∧
    (∀ (offs : List Nat) (m : Nat), ChainFrom file offs startNext m →
      offs.Nodup → headerOff ∉ offs → m ≠ 0 → (m = headerOff ∨ m ∈ offs) →
      gdbm_avail_verify_model true headerOff startNext file
        = Except.error GdbmErr.badAvail) ∧
    (∀ (v : List Nat) (n : Nat), List.Sorted (· < ·) v → n ∉ v →
      List.Sorted (· < ·) (off_map_insert_pos v n) ∧
      (∀ m, m ∈ off_map_insert_pos v n ↔ m = n ∨ m ∈ v)) ∧
    (gdbm_avail_verify_model false headerOff startNext file
      = Except.error GdbmErr.badAvail) := by
  refine ⟨?_, ?_, ?_, rfl⟩
  · intro offs hch hnd hho
    rw [gdbm_avail_verify_model, if_neg (by simp)]
    refine traverse_loop_ok file offs (off_map_insert_pos [] headerOff)
      startNext hch hnd ?_
    intro m hm hmem
    rcases (mem_off_map_insert_pos [] headerOff m).mp hmem with rfl | hmem
    · exact hho hm
    · cases hmem
  · intro offs m hch hnd hho hm0 hmem
    rw [gdbm_avail_verify_model, if_neg (by simp)]
    refine traverse_loop_cycle file offs (off_map_insert_pos [] headerOff)
      startNext m hch hnd ?_ hm0 ?_
    · intro o ho hmem'
      rcases (mem_off_map_insert_pos [] headerOff o).mp hmem' with rfl | hmem'
      · exact hho ho
      · cases hmem'
    · rcases hmem with heq | hmem
      · exact Or.inl ((mem_off_map_insert_pos [] headerOff m).mpr
          (Or.inl heq))
      · exact Or.inr hmem
  · intro v n hs hn
    exact ⟨off_map_insert_pos_sorted v n hs hn,
      fun m => mem_off_map_insert_pos v n m⟩

/-- C7 witness: on a two-block avail stack forming a cycle
(100 → 200 → 100, header avail offset 16) the traversal stops with
BadAvail, and on a one-block stack ending at 0 it returns success. -/
theorem gdbm_avail_traverse_spec_witness :
    gdbm_avail_verify_model true 16 100
        [(100, ⟨true, 200⟩), (200, ⟨true, 100⟩)]
      = Except.error GdbmErr.badAvail ∧
    gdbm_avail_verify_model true 16 100 [(100, ⟨true, 0⟩)]
      = Except.ok () := by
  constructor
  · exact (gdbm_avail_traverse_spec 16 100
      [(100, ⟨true, 200⟩), (200, ⟨true, 100⟩)]).2.1 [100, 200] 100
      ⟨rfl, by decide, ⟨true, 200⟩, rfl, rfl,
        rfl, by decide, ⟨true, 100⟩, rfl, rfl, rfl⟩
      (by decide) (by decide) (by decide) (Or.inr (by decide))
  · exact (gdbm_avail_traverse_spec 16 100 [(100, ⟨true, 0⟩)]).1 [100]
      ⟨rfl, by decide, ⟨true, 0⟩, rfl, rfl, rfl⟩
      (by decide) (by decide)
